import Mathlib

/-!
Verification development for the portobackend repository (a Go REST backend
for a portfolio CMS).  The Go source is shallowly embedded: each service or
repository function becomes a pure Lean function over explicit state
(database tables as lists of rows, the upload directory as a list of file
paths), with the outcomes of external calls (form binding, file save,
SQL execution) supplied as boolean oracles in an environment record.
Strings are Lean `String`s; character-level reasoning uses `String.data`.
-/

namespace Porto

/-! ## Path helpers (Go `path/filepath`, specialised to the uses in this repo)

`filepath.Join(a, b)` is modelled as `a ++ "/" ++ b` (the repo always joins a
clean directory with a bare file name).  `filepath.Base` keeps the part after
the last `/`; `filepath.Ext` keeps the suffix of the last path element from
its final dot. -/

def joinPath (a b : String) : String := a ++ "/" ++ b

def baseChars (l : List Char) : List Char :=
  (l.reverse.takeWhile (fun c => c ≠ '/')).reverse

def filepathBase (s : String) : String := ⟨baseChars s.data⟩

def extChars (l : List Char) : List Char :=
  let r := l.reverse.takeWhile (fun c => c ≠ '/')
  if '.' ∈ r then ((r.takeWhile (fun c => c ≠ '.')) ++ ['.']).reverse else []

def filepathExt (s : String) : String := ⟨extChars s.data⟩

/-- `strings.ToLower`, defined character-wise (the extensions checked here are
ASCII) so that concrete calls evaluate by kernel reduction. -/
def toLowerStr (s : String) : String := ⟨s.data.map Char.toLower⟩

/-- A `multipart.FileHeader`: only the fields the services read. -/
structure FileHeader where
  filename : String
  size : Nat
  deriving DecidableEq, Repr

/-- Result of `ctx.FormFile(name)`: a file, `http.ErrMissingFile`, or another
error. -/
inductive FormFileResult where
  | missing : FormFileResult
  | failed : FormFileResult
  | file : FileHeader → FormFileResult
  deriving DecidableEq, Repr

/-! ## Experience aggregate
(`modules/components/experiences/repo/experepo.go`)

Row types follow the SQL schema used by the repository
(`portfolio_experiences`, `experience_responsibilities(id, experience_id,
description, display_order, created_at)`, `experience_skills(experience_id,
skill_name)`).  UUIDs are modelled as `Nat`; DB-generated timestamps are not
modelled.  GORM's `Transaction` rolls the database back to its initial value
whenever the body returns an error. -/

structure ExperienceResponsibility where
  id : Nat
  experienceID : Nat
  description : String
  displayOrder : Int
  deriving DecidableEq, Repr

structure ExperienceSkill where
  experienceID : Nat
  skillName : String
  deriving DecidableEq, Repr

/-- The parent columns of `portfolio_experiences`. -/
structure ExperienceRow where
  id : Nat
  title : String
  company : String
  location : String
  startYears : Int
  endYears : Int
  currentJob : Bool
  displayOrder : Int
  deriving DecidableEq, Repr

/-- The `model.Experience` aggregate: parent fields plus the two owned child
collections. -/
structure Experience where
  id : Nat
  title : String
  company : String
  location : String
  startYears : Int
  endYears : Int
  currentJob : Bool
  displayOrder : Int
  responsibilities : List ExperienceResponsibility
  skills : List ExperienceSkill
  deriving DecidableEq, Repr

def parentRow (e : Experience) : ExperienceRow :=
  { id := e.id, title := e.title, company := e.company, location := e.location,
    startYears := e.startYears, endYears := e.endYears,
    currentJob := e.currentJob, displayOrder := e.displayOrder }

structure ExpDb where
  experiences : List ExperienceRow
  responsibilities : List ExperienceResponsibility
  skills : List ExperienceSkill
  deriving DecidableEq, Repr

/-- Stamping loop of the create/update paths: every responsibility gets the
parent id, its `ID` is reset, and the insert assigns fresh generated row ids
(modelled as consecutive naturals from `base`). -/
def stampResp (expId : Nat) (base : Nat) : List ExperienceResponsibility → List ExperienceResponsibility
  | [] => []
  | r :: rs => { r with id := base, experienceID := expId } :: stampResp expId (base + 1) rs

/-- Stamping loop for skills: only `ExperienceID` is set. -/
def stampSkills (expId : Nat) (ss : List ExperienceSkill) : List ExperienceSkill :=
  ss.map (fun s => { s with experienceID := expId })

/-- `tx.Clauses(clause.OnConflict{Columns: (experience_id, skill_name),
DoNothing: true}).Create(&skills)`: rows are inserted one by one; a row whose
conflict key already occurs in the table is silently dropped. -/
def insertSkillsIgnoreDup (db : List ExperienceSkill) : List ExperienceSkill → List ExperienceSkill
  | [] => db
  | r :: rs =>
    if db.any (fun q => q.experienceID = r.experienceID ∧ q.skillName = r.skillName) then
      insertSkillsIgnoreDup db rs
    else
      insertSkillsIgnoreDup (db ++ [r]) rs

/-- Oracles for the three inserts of `CreateExperienceWithRelations`, the
generated parent id and the base for generated responsibility row ids. -/
structure ExpCreateEnv where
  createExpOk : Bool
  createRespOk : Bool
  createSkillOk : Bool
  newId : Nat
  respIdBase : Nat
  deriving DecidableEq, Repr

def createExpBody (env : ExpCreateEnv) (db : ExpDb) (e : Experience) :
    Except String (Experience × ExpDb) :=
  -- tx.Create(experience)
  if env.createExpOk = false then .error "insert experience failed" else
  let e1 := { e with id := env.newId,
                     responsibilities := stampResp env.newId env.respIdBase e.responsibilities,
                     skills := stampSkills env.newId e.skills }
  let db1 := { db with experiences := db.experiences ++ [parentRow e1] }
  -- if len(Responsibilities) > 0 then tx.Create(&Responsibilities)
  if e1.responsibilities ≠ [] ∧ env.createRespOk = false then .error "insert responsibilities failed" else
  let db2 := if e1.responsibilities = [] then db1
             else { db1 with responsibilities := db1.responsibilities ++ e1.responsibilities }
  -- if len(Skills) > 0 then tx.Clauses(OnConflict DoNothing).Create(&Skills)
  if e1.skills ≠ [] ∧ env.createSkillOk = false then .error "insert skills failed" else
  let db3 := if e1.skills = [] then db2
             else { db2 with skills := insertSkillsIgnoreDup db2.skills e1.skills }
  .ok (e1, db3)

/-- `CreateExperienceWithRelations`: the transactional wrapper restores the
original database on error. -/
def createExperienceWithRelations (env : ExpCreateEnv) (db : ExpDb) (e : Experience) :
    Except String Experience × ExpDb :=
  match createExpBody env db e with
  | .ok (e1, db') => (.ok e1, db')
  | .error msg => (.error msg, db)

/-- `GetExperienceByIDWithRelations`: `First` on the parent (error when the id
does not resolve), `Preload("Responsibilities")` ordered by
`display_order ASC`, and `Preload("Skills")` with no ordering clause (rows
come back in stored order). -/
def getExperienceByIDWithRelations (db : ExpDb) (expId : Nat) : Except String Experience :=
  match db.experiences.find? (fun r : ExperienceRow => r.id = expId) with
  | none => .error "record not found"
  | some row =>
    .ok { id := row.id, title := row.title, company := row.company,
          location := row.location, startYears := row.startYears,
          endYears := row.endYears, currentJob := row.currentJob,
          displayOrder := row.displayOrder,
          responsibilities :=
            List.insertionSort
              (fun a b : ExperienceResponsibility => a.displayOrder ≤ b.displayOrder)
              (db.responsibilities.filter
                (fun r : ExperienceResponsibility => r.experienceID = expId)),
          skills := db.skills.filter (fun r : ExperienceSkill => r.experienceID = expId) }

/-- Oracles for the five statements of `UpdateExperienceWithRelations`. -/
structure ExpUpdateEnv where
  saveExpOk : Bool
  delRespOk : Bool
  createRespOk : Bool
  delSkillOk : Bool
  createSkillOk : Bool
  respIdBase : Nat
  deriving DecidableEq, Repr

def updateExpBody (env : ExpUpdateEnv) (db : ExpDb) (e : Experience) :
    Except String (Experience × ExpDb) :=
  -- tx.Save(experience): updates the parent row with this id
  if env.saveExpOk = false then .error "save experience failed" else
  let e1 := { e with responsibilities := stampResp e.id env.respIdBase e.responsibilities,
                     skills := stampSkills e.id e.skills }
  let db1 := { db with experiences :=
                 db.experiences.map (fun r : ExperienceRow => if r.id = e.id then parentRow e1 else r) }
  -- delete existing responsibilities for this experience id
  if env.delRespOk = false then .error "delete responsibilities failed" else
  let db2 := { db1 with responsibilities :=
                 db1.responsibilities.filter (fun r : ExperienceResponsibility => r.experienceID ≠ e.id) }
  -- if len(Responsibilities) > 0 then tx.Create(&Responsibilities)
  if e1.responsibilities ≠ [] ∧ env.createRespOk = false then .error "insert responsibilities failed" else
  let db3 := if e1.responsibilities = [] then db2
             else { db2 with responsibilities := db2.responsibilities ++ e1.responsibilities }
  -- delete existing skills for this experience id
  if env.delSkillOk = false then .error "delete skills failed" else
  let db4 := { db3 with skills := db3.skills.filter (fun r : ExperienceSkill => r.experienceID ≠ e.id) }
  -- if len(Skills) > 0 then tx.Clauses(OnConflict DoNothing).Create(&Skills)
  if e1.skills ≠ [] ∧ env.createSkillOk = false then .error "insert skills failed" else
  let db5 := if e1.skills = [] then db4
             else { db4 with skills := insertSkillsIgnoreDup db4.skills e1.skills }
  .ok (e1, db5)

/-- `UpdateExperienceWithRelations` with its transactional rollback. -/
def updateExperienceWithRelations (env : ExpUpdateEnv) (db : ExpDb) (e : Experience) :
    Except String Experience × ExpDb :=
  match updateExpBody env db e with
  | .ok (e1, db') => (.ok e1, db')
  | .error msg => (.error msg, db)

/-- Oracles for the three deletes of `DeleteExperienceWithRelations`. -/
structure ExpDeleteEnv where
  delSkillOk : Bool
  delRespOk : Bool
  delExpOk : Bool
  deriving DecidableEq, Repr

def deleteExpBody (env : ExpDeleteEnv) (db : ExpDb) (expId : Nat) :
    Except String ExpDb :=
  if env.delSkillOk = false then .error "delete skills failed" else
  let db1 := { db with skills := db.skills.filter (fun r : ExperienceSkill => r.experienceID ≠ expId) }
  if env.delRespOk = false then .error "delete responsibilities failed" else
  let db2 := { db1 with responsibilities :=
                 db1.responsibilities.filter (fun r : ExperienceResponsibility => r.experienceID ≠ expId) }
  if env.delExpOk = false then .error "delete experience failed" else
  .ok { db2 with experiences := db2.experiences.filter (fun r : ExperienceRow => r.id ≠ expId) }

/-- `DeleteExperienceWithRelations`: GORM's `Delete` reports no error when the
`WHERE` clause matches nothing, so the body succeeds whether or not the id
exists. -/
def deleteExperienceWithRelations (env : ExpDeleteEnv) (db : ExpDb) (expId : Nat) :
    Except String Unit × ExpDb :=
  match deleteExpBody env db expId with
  | .ok db' => (.ok (), db')
  | .error msg => (.error msg, db)

/-- Reference dedup of a skill batch: keeps the first row of every conflict
key, dropping rows whose key is already in `seen`. -/
def dedupSkills (seen : List (Nat × String)) : List ExperienceSkill → List ExperienceSkill
  | [] => []
  | r :: rs =>
    if (r.experienceID, r.skillName) ∈ seen then dedupSkills seen rs
    else r :: dedupSkills ((r.experienceID, r.skillName) :: seen) rs

/-! ## Project module
(repository: `src/unnamed/part_000`, package `projectrepo`;
service: `src/unnamed/part_001`, package `projectservice`)

`uuid.UUID` values are modelled as `Nat`; `uuid.Parse` results arrive as an
`Option Nat` parameter.  `created_at` columns are not modelled; `updated_at`
is a `Nat` stamped from a `now` parameter. -/

structure Project where
  id : Nat
  title : String
  description : String
  imageURL : String
  demoURL : String
  codeURL : String
  displayOrder : Int
  isFeatured : Bool
  status : String
  updatedAt : Nat
  deriving DecidableEq, Repr

structure ProjectForm where
  title : String
  description : String
  demoURL : String
  codeURL : String
  status : String
  displayOrder : Int
  isFeatured : Bool
  deriving DecidableEq, Repr

structure ProjectUpdateForm where
  title : String
  description : String
  demoURL : String
  codeURL : String
  status : String
  displayOrder : Int
  isFeatured : Bool
  deriving DecidableEq, Repr

/-- `GetProjekRepository`: `SELECT ... WHERE id = $1`; `sql.ErrNoRows` becomes
the domain error `project not found`. -/
def getProjekRepository (db : List Project) (id : Nat) : Except String Project :=
  match db.find? (fun p : Project => p.id = id) with
  | some p => .ok p
  | none => .error "project not found"

/-- `CreateProjekRepository`: `INSERT ... RETURNING id, ...`; the oracle `ok`
is the outcome of the SQL execution. -/
def createProjekRepository (ok : Bool) (newId : Nat) (db : List Project) (p : Project) :
    Except String Project × List Project :=
  if ok = false then (.error "insert failed", db)
  else
    let created := { p with id := newId }
    (.ok created, db ++ [created])

/-- `UpdateProjekRepository`: `UPDATE ... updated_at = NOW() WHERE id = $9
RETURNING updated_at`; scanning fails with `sql.ErrNoRows` when no row
matches. -/
def updateProjekRepository (ok : Bool) (now : Nat) (db : List Project) (p : Project) :
    Except String Project × List Project :=
  if ok = false then (.error "update exec failed", db)
  else if db.any (fun r : Project => r.id = p.id) then
    let updated := { p with updatedAt := now }
    (.ok updated, db.map (fun r : Project => if r.id = p.id then updated else r))
  else (.error "sql: no rows in result set", db)

/-- `DeleteProjekRepository`: `DELETE ... WHERE id = $1`, then
`RowsAffected == 0` is reported as `project not found`. -/
def deleteProjekRepository (ok : Bool) (db : List Project) (id : Nat) :
    Except String Unit × List Project :=
  if ok = false then (.error "delete exec failed", db)
  else
    let affected := (db.filter (fun p : Project => p.id = id)).length
    if affected = 0 then (.error "project not found", db)
    else (.ok (), db.filter (fun p : Project => p.id ≠ id))

/-- The state a project-service call acts on: the upload directory (list of
absolute file paths) and the `portfolio_projects` table. -/
structure ProjState where
  files : List String
  projects : List Project
  deriving DecidableEq, Repr

structure ProjCreateEnv where
  bind : Option ProjectForm
  formFile : FormFileResult
  uuidStr : String
  mkdirOk : Bool
  saveOk : Bool
  repoOk : Bool
  removeOk : Bool
  newId : Nat
  deriving DecidableEq, Repr

structure ProjUpdateEnv where
  idParam : Option Nat
  formFile : FormFileResult
  uuidStr : String
  saveOk : Bool
  bind : Option ProjectUpdateForm
  repoOk : Bool
  now : Nat
  removeOldOk : Bool
  removeNewOk : Bool
  deriving DecidableEq, Repr

structure ProjDeleteEnv where
  idParam : Option Nat
  deleteOk : Bool
  removeOk : Bool
  deriving DecidableEq, Repr

namespace Projectservice

/-- `(s *projectService) validateFile`: at most 10MB, extension (lower-cased)
in the jpg/jpeg/png/webp allow-list. -/
def validateFile (f : FileHeader) : Except String Unit :=
  if f.size > 10 * 1024 * 1024 then .error "ukuran file maksimal 10MB"
  else if (toLowerStr (filepathExt f.filename) = ".jpg"
      ∨ toLowerStr (filepathExt f.filename) = ".jpeg"
      ∨ toLowerStr (filepathExt f.filename) = ".png"
      ∨ toLowerStr (filepathExt f.filename) = ".webp") then .ok ()
  else .error "tipe file tidak diizinkan. File yang diizinkan: jpg, jpeg, png, webp"

/-- Tail of `CreateProjekWithImageService` after the upload handling:
defaults, entity construction, repository insert, and the compensating
file delete when the insert fails. -/
def createProjekFinish (uploadPath : String) (env : ProjCreateEnv) (form : ProjectForm)
    (hasFile : Bool) (imageURL : String) (st : ProjState) : Except String Project × ProjState :=
  let status := if form.status = "" then "published" else form.status
  let demoURL := if form.demoURL = "" then "#" else form.demoURL
  let project : Project :=
    { id := 0, title := form.title, description := form.description,
      imageURL := imageURL, demoURL := demoURL, codeURL := form.codeURL,
      displayOrder := form.displayOrder, isFeatured := form.isFeatured,
      status := status, updatedAt := 0 }
  match createProjekRepository env.repoOk env.newId st.projects project with
  | (res, projects') =>
    match res with
    | .ok created => (.ok created, { st with projects := projects' })
    | .error _ =>
    -- if file != nil && imageURL != "#" { os.Remove(Join(uploadPath, Base(imageURL))) }
    if hasFile = true ∧ imageURL ≠ "#" then
      let fileToDelete := joinPath uploadPath (filepathBase imageURL)
      (.error "gagal menyimpan data projek",
        { st with projects := projects',
                  files := if env.removeOk then st.files.filter (fun p => p ≠ fileToDelete)
                           else st.files })
    else (.error "gagal menyimpan data projek", { st with projects := projects' })

/-- `CreateProjekWithImageService`. -/
def createProjekWithImageService (uploadPath : String) (env : ProjCreateEnv) (st : ProjState) :
    Except String Project × ProjState :=
  match env.bind with
  | none => (.error "gagal binding data", st)
  | some form =>
    if form.title = "" then (.error "judul projek harus diisi", st)
    else if form.description = "" then (.error "deskripsi projek harus diisi", st)
    else if form.codeURL = "" then (.error "URL kode projek harus diisi", st)
    else
      match env.formFile with
      | .failed => (.error "gagal mengambil file", st)
      | .missing => createProjekFinish uploadPath env form false "#" st
      | .file f =>
        match validateFile f with
        | .error msg => (.error msg, st)
        | .ok _ =>
          let fileName := "project_" ++ env.uuidStr ++ filepathExt f.filename
          let filePath := joinPath uploadPath fileName
          if env.mkdirOk = false then (.error "gagal membuat folder upload", st)
          else if env.saveOk = false then (.error "gagal menyimpan file", st)
          else
            let st1 := { st with files := filePath :: st.files }
            -- os.Stat verification that the file was written
            if filePath ∈ st1.files then
              createProjekFinish uploadPath env form true ("/uploads/projects/" ++ fileName) st1
            else (.error "file gagal disimpan", st1)

/-- Tail of `UpdateProjekService` after the upload handling: form binding
(with cleanup of the new file on failure), field merge, repository update
(with cleanup of the new file on failure). -/
def updateProjekFinish (uploadPath : String) (env : ProjUpdateEnv) (existingProject : Project)
    (hasFile : Bool) (imageURL : String) (st : ProjState) : Except String Project × ProjState :=
  match env.bind with
  | none =>
    if hasFile = true then
      (.error "gagal binding data",
        { st with files := if env.removeNewOk then
            st.files.filter (fun p => p ≠ joinPath uploadPath (filepathBase imageURL))
          else st.files })
    else (.error "gagal binding data", st)
  | some form =>
    let merged := { existingProject with
      title := if form.title ≠ "" then form.title else existingProject.title,
      description := if form.description ≠ "" then form.description
                     else existingProject.description,
      demoURL := if form.demoURL ≠ "" then form.demoURL else existingProject.demoURL,
      codeURL := if form.codeURL ≠ "" then form.codeURL else existingProject.codeURL,
      displayOrder := if form.displayOrder ≠ 0 then form.displayOrder
                      else existingProject.displayOrder,
      isFeatured := form.isFeatured,
      status := if form.status ≠ "" then form.status else existingProject.status,
      imageURL := imageURL }
    match updateProjekRepository env.repoOk env.now st.projects merged with
    | (res, projects') =>
      match res with
      | .ok updated => (.ok updated, { st with projects := projects' })
      | .error _ =>
      if hasFile = true then
        (.error "gagal mengupdate projek",
          { st with projects := projects',
                    files := if env.removeNewOk then
                      st.files.filter (fun p => p ≠ joinPath uploadPath (filepathBase imageURL))
                    else st.files })
      else (.error "gagal mengupdate projek", { st with projects := projects' })

/-- `UpdateProjekService`. -/
def updateProjekService (uploadPath : String) (env : ProjUpdateEnv) (st : ProjState) :
    Except String Project × ProjState :=
  match env.idParam with
  | none => (.error "ID projek tidak valid", st)
  | some id =>
    match getProjekRepository st.projects id with
    | .error _ => (.error "projek tidak ditemukan", st)
    | .ok existingProject =>
      let oldImageURL := existingProject.imageURL
      match env.formFile with
      | .failed => (.error "gagal mengambil file", st)
      | .missing =>
        updateProjekFinish uploadPath env existingProject false existingProject.imageURL st
      | .file f =>
        match validateFile f with
        | .error msg => (.error msg, st)
        | .ok _ =>
          let fileName := "project_" ++ env.uuidStr ++ filepathExt f.filename
          let filePath := joinPath uploadPath fileName
          if env.saveOk = false then (.error "gagal menyimpan file", st)
          else
            let st1 := { st with files := filePath :: st.files }
            -- the previous stored file is deleted only here, after the save succeeded
            let st2 :=
              if oldImageURL ≠ "" ∧ oldImageURL ≠ "#" then
                { st1 with files := if env.removeOldOk then
                    st1.files.filter (fun p => p ≠ joinPath uploadPath (filepathBase oldImageURL))
                  else st1.files }
              else st1
            updateProjekFinish uploadPath env existingProject true
              ("/uploads/projects/" ++ fileName) st2

/-- `DeleteProjekService`: fetch, delete the repository row first, then
best-effort delete of the stored file (a failing `os.Remove` is logged, not
returned). -/
def deleteProjekService (uploadPath : String) (env : ProjDeleteEnv) (st : ProjState) :
    Except String Unit × ProjState :=
  match env.idParam with
  | none => (.error "ID projek tidak valid", st)
  | some id =>
    match getProjekRepository st.projects id with
    | .error _ => (.error "projek tidak ditemukan", st)
    | .ok existingProject =>
      match deleteProjekRepository env.deleteOk st.projects id with
      | (res, projects') =>
        match res with
        | .error _ =>
          (.error "gagal menghapus projek", { st with projects := projects' })
        | .ok _ =>
        let st1 := { st with projects := projects' }
        if existingProject.imageURL ≠ "" ∧ existingProject.imageURL ≠ "#" then
          let filePath := joinPath uploadPath (filepathBase existingProject.imageURL)
          if filePath ∈ st1.files then
            if env.removeOk then
              (.ok (), { st1 with files := st1.files.filter (fun p => p ≠ filePath) })
            else (.ok (), st1)
          else (.ok (), st1)
        else (.ok (), st1)

end Projectservice

/-! ## Skill module
(service: `src/modules/components/Project/service/upload_wrapper.go`,
package `service`, skills section) -/

structure Skill where
  id : Nat
  name : String
  value : Int
  iconURL : String
  category : String
  displayOrder : Int
  isFeatured : Bool
  createdAt : Nat
  updatedAt : Nat
  deriving DecidableEq, Repr

structure SkillForm where
  name : String
  value : Int
  category : String
  displayOrder : Int
  isFeatured : Bool
  deriving DecidableEq, Repr

structure SkillUpdateRequest where
  name : String
  value : Int
  iconURL : String
  category : String
  displayOrder : Int
  isFeatured : Bool
  deriving DecidableEq, Repr

/-- Modelled from the spec: the skill repository
(`modules/components/all/repo`) is not among the provided sources; per the
spec it is a plain single-table GORM CRUD store.  `GetByID` resolves an id or
reports a record-not-found error. -/
def skillGetByID (db : List Skill) (id : Nat) : Except String Skill :=
  match db.find? (fun s : Skill => s.id = id) with
  | some s => .ok s
  | none => .error "record not found"

/-- Modelled from the spec: `repo.Create` appends the row with a generated
id; the oracle `ok` is the SQL outcome. -/
def skillRepoCreate (ok : Bool) (newId : Nat) (db : List Skill) (s : Skill) :
    Except String Skill × List Skill :=
  if ok = false then (.error "insert failed", db)
  else
    let created := { s with id := newId }
    (.ok created, db ++ [created])

/-- Modelled from the spec: `repo.Update` overwrites the row with the same
id. -/
def skillRepoUpdate (ok : Bool) (db : List Skill) (s : Skill) :
    Except String Skill × List Skill :=
  if ok = false then (.error "update failed", db)
  else (.ok s, db.map (fun r : Skill => if r.id = s.id then s else r))

/-- Modelled from the spec: `repo.Delete` removes rows with the id (GORM
reports no error when nothing matches). -/
def skillRepoDelete (ok : Bool) (db : List Skill) (id : Nat) :
    Except String Unit × List Skill :=
  if ok = false then (.error "delete failed", db)
  else (.ok (), db.filter (fun r : Skill => r.id ≠ id))

structure SkillState where
  files : List String
  skills : List Skill
  deriving DecidableEq, Repr

structure SkillCreateEnv where
  bind : Option SkillForm
  formFile : FormFileResult
  uuidStr : String
  saveOk : Bool
  repoOk : Bool
  removeOk : Bool
  newId : Nat
  deriving DecidableEq, Repr

structure SkillUpdateIconEnv where
  idParam : Option Nat
  bind : Option SkillForm
  formFile : FormFileResult
  uuidStr : String
  saveOk : Bool
  repoOk : Bool
  removeOldOk : Bool
  removeNewOk : Bool
  now : Nat
  deriving DecidableEq, Repr

structure SkillUpdateEnv where
  idParam : Option Nat
  bind : Option SkillUpdateRequest
  repoOk : Bool
  now : Nat
  deriving DecidableEq, Repr

structure SkillDeleteEnv where
  idParam : Option Nat
  deleteOk : Bool
  removeOk : Bool
  deriving DecidableEq, Repr

namespace Skillservice

/-- `(s *skillService) validateFile`: at most 5MB, extension (lower-cased) in
the jpg/jpeg/png/webp/svg/ico allow-list. -/
def validateFile (f : FileHeader) : Except String Unit :=
  if f.size > 5 * 1024 * 1024 then .error "ukuran file maksimal 5MB"
  else if (toLowerStr (filepathExt f.filename) = ".jpg"
      ∨ toLowerStr (filepathExt f.filename) = ".jpeg"
      ∨ toLowerStr (filepathExt f.filename) = ".png"
      ∨ toLowerStr (filepathExt f.filename) = ".webp"
      ∨ toLowerStr (filepathExt f.filename) = ".svg"
      ∨ toLowerStr (filepathExt f.filename) = ".ico") then .ok ()
  else .error "tipe file tidak diizinkan. File yang diizinkan: jpg, jpeg, png, webp, svg, ico"

/-- Tail of `CreateWithIcon` after the upload handling: defaults, entity,
repository insert with compensating file delete on failure. -/
def createWithIconFinish (uploadPath : String) (env : SkillCreateEnv) (form : SkillForm)
    (hasFile : Bool) (iconURL : String) (st : SkillState) : Except String Skill × SkillState :=
  let category := if form.category = "" then "programming" else form.category
  let skill : Skill :=
    { id := 0, name := form.name, value := form.value, iconURL := iconURL,
      category := category, displayOrder := form.displayOrder,
      isFeatured := form.isFeatured, createdAt := 0, updatedAt := 0 }
  match skillRepoCreate env.repoOk env.newId st.skills skill with
  | (res, skills') =>
    match res with
    | .ok created => (.ok created, { st with skills := skills' })
    | .error _ =>
    -- if file != nil && iconURL != "" { os.Remove(Join(uploadPath, Base(iconURL))) }
    if hasFile = true ∧ iconURL ≠ "" then
      (.error "gagal menyimpan data skill",
        { st with skills := skills',
                  files := if env.removeOk then
                    st.files.filter (fun p => p ≠ joinPath uploadPath (filepathBase iconURL))
                  else st.files })
    else (.error "gagal menyimpan data skill", { st with skills := skills' })

/-- `(s *skillService) CreateWithIcon`. -/
def createWithIcon (uploadPath : String) (env : SkillCreateEnv) (st : SkillState) :
    Except String Skill × SkillState :=
  match env.bind with
  | none => (.error "gagal binding data", st)
  | some form =>
    if form.name = "" then (.error "nama skill harus diisi", st)
    else if form.value < 0 ∨ form.value > 100 then (.error "nilai skill harus antara 0-100", st)
    else
      match env.formFile with
      | .failed => (.error "gagal mengambil file icon", st)
      | .missing => createWithIconFinish uploadPath env form false "" st
      | .file f =>
        match validateFile f with
        | .error msg => (.error msg, st)
        | .ok _ =>
          let fileName := "skill_" ++ env.uuidStr ++ filepathExt f.filename
          let filePath := joinPath uploadPath fileName
          if env.saveOk = false then (.error "gagal menyimpan file icon", st)
          else
            let st1 := { st with files := filePath :: st.files }
            createWithIconFinish uploadPath env form true ("/uploads/skills/" ++ fileName) st1

/-- `(s *skillService) Update` (the JSON update): `Name` and `Value` are
merged conditionally; `IconURL`, `Category`, `DisplayOrder`, `IsFeatured` and
`UpdatedAt` are overwritten unconditionally. -/
def update (env : SkillUpdateEnv) (db : List Skill) : Except String Skill × List Skill :=
  match env.idParam with
  | none => (.error "invalid skill ID", db)
  | some id =>
    match skillGetByID db id with
    | .error msg => (.error msg, db)
    | .ok existing =>
      match env.bind with
      | none => (.error "bind failed", db)
      | some req =>
        let merged := { existing with
          name := if req.name ≠ "" then req.name else existing.name,
          value := if req.value ≠ 0 then req.value else existing.value,
          iconURL := req.iconURL,
          category := req.category,
          displayOrder := req.displayOrder,
          isFeatured := req.isFeatured,
          updatedAt := env.now }
        skillRepoUpdate env.repoOk db merged

/-- Tail of `UpdateWithIcon` after the upload handling: field merge,
repository update with cleanup of the (already installed) new icon file on
failure.  `existing` carries the possibly-replaced `iconURL`. -/
def updateWithIconFinish (uploadPath : String) (env : SkillUpdateIconEnv) (existing : Skill)
    (hasFile : Bool) (form : SkillForm) (st : SkillState) : Except String Skill × SkillState :=
  let merged := { existing with
    name := if form.name ≠ "" then form.name else existing.name,
    value := if form.value ≠ 0 then form.value else existing.value,
    category := if form.category ≠ "" then form.category else existing.category,
    displayOrder := form.displayOrder,
    isFeatured := form.isFeatured,
    updatedAt := env.now }
  match skillRepoUpdate env.repoOk st.skills merged with
  | (res, skills') =>
    match res with
    | .ok s => (.ok s, { st with skills := skills' })
    | .error _ =>
    if hasFile = true then
      (.error "gagal mengupdate data skill",
        { st with skills := skills',
                  files := if env.removeNewOk then
                    st.files.filter (fun p => p ≠ joinPath uploadPath (filepathBase merged.iconURL))
                  else st.files })
    else (.error "gagal mengupdate data skill", { st with skills := skills' })

/-- `(s *skillService) UpdateWithIcon`. -/
def updateWithIcon (uploadPath : String) (env : SkillUpdateIconEnv) (st : SkillState) :
    Except String Skill × SkillState :=
  match env.idParam with
  | none => (.error "invalid skill ID", st)
  | some id =>
    match skillGetByID st.skills id with
    | .error msg => (.error msg, st)
    | .ok existing =>
      match env.bind with
      | none => (.error "gagal binding data", st)
      | some form =>
        match env.formFile with
        | .failed => (.error "gagal mengambil file icon", st)
        | .missing => updateWithIconFinish uploadPath env existing false form st
        | .file f =>
          match validateFile f with
          | .error msg => (.error msg, st)
          | .ok _ =>
            let fileName := "skill_" ++ env.uuidStr ++ filepathExt f.filename
            let filePath := joinPath uploadPath fileName
            if env.saveOk = false then (.error "gagal menyimpan file icon", st)
            else
              let st1 := { st with files := filePath :: st.files }
              -- the old icon is deleted only here, after the new save succeeded
              let st2 :=
                if existing.iconURL ≠ "" then
                  { st1 with files := if env.removeOldOk then
                      st1.files.filter (fun p => p ≠ joinPath uploadPath (filepathBase existing.iconURL))
                    else st1.files }
                else st1
              updateWithIconFinish uploadPath env
                { existing with iconURL := "/uploads/skills/" ++ fileName } true form st2

/-- `(s *skillService) Delete`: fetch, then the icon file is removed (best
effort) BEFORE the repository row, and the repository error is returned
as-is. -/
def deleteSkill (uploadPath : String) (env : SkillDeleteEnv) (st : SkillState) :
    Except String Unit × SkillState :=
  match env.idParam with
  | none => (.error "invalid skill ID", st)
  | some id =>
    match skillGetByID st.skills id with
    | .error msg => (.error msg, st)
    | .ok skill =>
      let st1 :=
        if skill.iconURL ≠ "" then
          { st with files := if env.removeOk then
              st.files.filter (fun p => p ≠ joinPath uploadPath (filepathBase skill.iconURL))
            else st.files }
        else st
      match skillRepoDelete env.deleteOk st1.skills id with
      | (res, skills') =>
        match res with
        | .ok _ => (.ok (), { st1 with skills := skills' })
        | .error msg => (.error msg, { st1 with skills := skills' })

end Skillservice

/-! ## Certificate module (delete path)
(service: `src/modules/components/Project/service/upload_wrapper.go`,
certificates section) -/

structure Certificate where
  id : Nat
  name : String
  imageURL : String
  issueDate : Nat
  issuer : String
  credentialURL : String
  displayOrder : Int
  deriving DecidableEq, Repr

/-- Modelled from the spec: the certificate repository is not among the
provided sources; `GetByID` resolves an id or reports not-found. -/
def certGetByID (db : List Certificate) (id : Nat) : Except String Certificate :=
  match db.find? (fun c : Certificate => c.id = id) with
  | some c => .ok c
  | none => .error "record not found"

/-- Modelled from the spec: `repo.Delete` removes rows with the id. -/
def certRepoDelete (ok : Bool) (db : List Certificate) (id : Nat) :
    Except String Unit × List Certificate :=
  if ok = false then (.error "delete failed", db)
  else (.ok (), db.filter (fun c : Certificate => c.id ≠ id))

structure CertState where
  files : List String
  certs : List Certificate
  deriving DecidableEq, Repr

structure CertDeleteEnv where
  idParam : Option Nat
  deleteOk : Bool
  removeOk : Bool
  deriving DecidableEq, Repr

namespace Certservice

/-- `(s *certificateService) Delete`: fetch, delete the repository row first,
then best-effort delete of the stored image (a failing `os.Remove` is logged,
not returned). -/
def deleteCert (uploadPath : String) (env : CertDeleteEnv) (st : CertState) :
    Except String Unit × CertState :=
  match env.idParam with
  | none => (.error "ID sertif tidak valid", st)
  | some id =>
    match certGetByID st.certs id with
    | .error _ => (.error "sertif tidak ditemukan", st)
    | .ok existing =>
      match certRepoDelete env.deleteOk st.certs id with
      | (res, certs') =>
        match res with
        | .error _ => (.error "gagal menghapus sertif", { st with certs := certs' })
        | .ok _ =>
        let st1 := { st with certs := certs' }
        if existing.imageURL ≠ "" ∧ existing.imageURL ≠ "#" then
          let filePath := joinPath uploadPath (filepathBase existing.imageURL)
          if filePath ∈ st1.files then
            if env.removeOk then
              (.ok (), { st1 with files := st1.files.filter (fun p => p ≠ filePath) })
            else (.ok (), st1)
          else (.ok (), st1)
        else (.ok (), st1)

end Certservice

/-! ## Supabase storage URL handling

Two variants exist in the sources (both in Go package `utils`):
variant A (`src/unnamed/part_003`) builds public URLs from an extracted
project id and strips the first path segment after the URL marker on delete;
variant B (`src/modules/utils/supabase_storage.go`) builds public URLs from
the configured base URL and additionally checks that the stripped segment
equals the bucket, trying the marker with and without a leading slash.
Go strings are modelled as `List Char` here because the claims need
character-level reasoning (`strings.Index`, `strings.SplitN`). -/

def urlMarker : List Char := "/storage/v1/object/public/".data

def urlMarkerNoSlash : List Char := "storage/v1/object/public/".data

/-- `strings.Index(s, pat)`: position of the first occurrence (as `some i`),
`none` when absent. -/
def strIndex (pat : List Char) : List Char → Option Nat
  | [] => if pat.isPrefixOf ([] : List Char) then some 0 else none
  | c :: rest =>
    if pat.isPrefixOf (c :: rest) then some 0
    else (strIndex pat rest).map (fun i => i + 1)

/-- `strings.SplitN(s, "/", 2)` restricted to the two-part case: `some`
(before, after) of the first `/`, `none` when `s` has no `/` (the caller
treats a one-part split as failure). -/
def splitOnceSlash : List Char → Option (List Char × List Char)
  | [] => none
  | c :: rest =>
    if c = '/' then some ([], rest)
    else
      match splitOnceSlash rest with
      | none => none
      | some (a, b) => some (c :: a, b)

/-- `strings.TrimPrefix(s, "/")`. -/
def trimOneLeadingSlash : List Char → List Char
  | [] => []
  | c :: rest => if c = '/' then rest else c :: rest

/-- `strings.TrimSuffix(s, "/")`. -/
def trimOneTrailingSlash (l : List Char) : List Char :=
  match l.getLast? with
  | some c => if c = '/' then l.dropLast else l
  | none => l

namespace SupabaseA

structure Service where
  projectID : List Char
  bucket : List Char
  deriving DecidableEq, Repr

/-- `GetPublicURL` (variant A): empty result when no project id could be
extracted, otherwise
`https://PROJECT.supabase.co/storage/v1/object/public/BUCKET/PATH` with one
leading slash trimmed from the path. -/
def getPublicURL (s : Service) (filePath : List Char) : List Char :=
  if s.projectID = [] then []
  else "https://".data ++ s.projectID ++ ".supabase.co".data ++ urlMarker
        ++ s.bucket ++ '/' :: trimOneLeadingSlash filePath

/-- `extractFilePathFromURL` (variant A): locate the URL marker, drop it,
then drop the first path segment (the bucket). -/
def extractFilePathFromURL (fileURL : List Char) : List Char :=
  match strIndex urlMarker fileURL with
  | none => []
  | some idx =>
    match splitOnceSlash (fileURL.drop (idx + urlMarker.length)) with
    | none => []
    | some (_, rest) => rest

end SupabaseA

namespace SupabaseB

structure Service where
  supabaseURL : List Char
  bucket : List Char
  deriving DecidableEq, Repr

/-- `GetPublicURL` (variant B): the configured base URL (one trailing slash
trimmed) followed by the marker, bucket and path (one leading slash
trimmed). -/
def getPublicURL (s : Service) (filePath : List Char) : List Char :=
  trimOneTrailingSlash s.supabaseURL ++ urlMarker ++ s.bucket
    ++ '/' :: trimOneLeadingSlash filePath

/-- One iteration of variant B's marker loop: find the marker, split off the
first segment, succeed only when that segment is the configured bucket. -/
def tryMarker (s : Service) (pre : List Char) (fileURL : List Char) : Option (List Char) :=
  match strIndex pre fileURL with
  | none => none
  | some idx =>
    match splitOnceSlash (fileURL.drop (idx + pre.length)) with
    | none => none
    | some (a, b) => if a = s.bucket then some b else none

/-- `extractFilePathFromURL` (variant B): try with the leading-slash marker,
then without, otherwise fail with an empty path. -/
def extractFilePathFromURL (s : Service) (fileURL : List Char) : List Char :=
  match tryMarker s urlMarker fileURL with
  | some r => r
  | none =>
    match tryMarker s urlMarkerNoSlash fileURL with
    | some r => r
    | none => []

end SupabaseB

/-! ## Concrete instances used by witnesses and counterexamples -/

instance : IsTotal ExperienceResponsibility
    (fun a b : ExperienceResponsibility => a.displayOrder ≤ b.displayOrder) :=
  ⟨fun a b => le_total a.displayOrder b.displayOrder⟩

instance : IsTrans ExperienceResponsibility
    (fun a b : ExperienceResponsibility => a.displayOrder ≤ b.displayOrder) :=
  ⟨fun _ _ _ hab hbc => le_trans hab hbc⟩

def expEnvU : ExpUpdateEnv :=
  { saveExpOk := true, delRespOk := true, createRespOk := true,
    delSkillOk := true, createSkillOk := true, respIdBase := 50 }

def expDb0 : ExpDb :=
  { experiences := [{ id := 7, title := "Dev", company := "Acme", location := "Bandung",
                      startYears := 2020, endYears := 2022, currentJob := false,
                      displayOrder := 1 }],
    responsibilities := [{ id := 1, experienceID := 7, description := "old resp",
                           displayOrder := 1 }],
    skills := [{ experienceID := 7, skillName := "PHP" }] }

def expSubmitU : Experience :=
  { id := 7, title := "Dev", company := "Acme", location := "Bandung",
    startYears := 2020, endYears := 2023, currentJob := true, displayOrder := 1,
    responsibilities := [{ id := 0, experienceID := 0, description := "new resp",
                           displayOrder := 2 }],
    skills := [{ experienceID := 0, skillName := "Go" },
               { experienceID := 0, skillName := "Go" }] }

def expEnvC : ExpCreateEnv :=
  { createExpOk := true, createRespOk := true, createSkillOk := true,
    newId := 3, respIdBase := 20 }

def expDbEmpty : ExpDb := { experiences := [], responsibilities := [], skills := [] }

def expSubmitC : Experience :=
  { id := 0, title := "Intern", company := "Beta", location := "Jakarta",
    startYears := 2021, endYears := 2022, currentJob := false, displayOrder := 2,
    responsibilities := [{ id := 0, experienceID := 0, description := "resp B",
                           displayOrder := 2 },
                         { id := 0, experienceID := 0, description := "resp A",
                           displayOrder := 1 }],
    skills := [{ experienceID := 0, skillName := "Go" },
               { experienceID := 0, skillName := "Go" },
               { experienceID := 0, skillName := "SQL" }] }

def expSubmitNodup : Experience :=
  { expSubmitC with skills := [{ experienceID := 0, skillName := "Go" },
                               { experienceID := 0, skillName := "SQL" }] }

def projForm0 : ProjectForm :=
  { title := "Site", description := "Desc", demoURL := "", codeURL := "http://x",
    status := "", displayOrder := 1, isFeatured := false }

def projFile0 : FileHeader := { filename := "pic.png", size := 100 }

def projCreateEnv0 : ProjCreateEnv :=
  { bind := some projForm0, formFile := .file projFile0, uuidStr := "u1",
    mkdirOk := true, saveOk := true, repoOk := false, removeOk := true, newId := 5 }

def projState0 : ProjState := { files := [], projects := [] }

def skillForm0 : SkillForm :=
  { name := "Go", value := 80, category := "", displayOrder := 1, isFeatured := false }

def skillFile0 : FileHeader := { filename := "icon.svg", size := 50 }

def skillCreateEnv0 : SkillCreateEnv :=
  { bind := some skillForm0, formFile := .file skillFile0, uuidStr := "u2",
    saveOk := true, repoOk := false, removeOk := true, newId := 6 }

def skillState0 : SkillState := { files := [], skills := [] }

def projUpdForm0 : ProjectUpdateForm :=
  { title := "", description := "", demoURL := "", codeURL := "", status := "",
    displayOrder := 0, isFeatured := false }

def projUpdFile0 : FileHeader := { filename := "new.png", size := 10 }

def projUpdateEnv0 : ProjUpdateEnv :=
  { idParam := some 1, formFile := .file projUpdFile0, uuidStr := "w1", saveOk := true,
    bind := some projUpdForm0, repoOk := true, now := 9,
    removeOldOk := true, removeNewOk := true }

def projExisting0 : Project :=
  { id := 1, title := "Old", description := "D", imageURL := "/uploads/projects/old.png",
    demoURL := "#", codeURL := "http://c", displayOrder := 2, isFeatured := true,
    status := "published", updatedAt := 0 }

def projUpdState0 : ProjState :=
  { files := [joinPath "up" "old.png"], projects := [projExisting0] }

def skillUpdForm0 : SkillForm :=
  { name := "", value := 0, category := "", displayOrder := 0, isFeatured := false }

def skillUpdFile0 : FileHeader := { filename := "i.png", size := 7 }

def skillUpdEnv0 : SkillUpdateIconEnv :=
  { idParam := some 2, bind := some skillUpdForm0, formFile := .file skillUpdFile0,
    uuidStr := "w2", saveOk := true, repoOk := true,
    removeOldOk := true, removeNewOk := true, now := 4 }

def skillExisting0 : Skill :=
  { id := 2, name := "Go", value := 70, iconURL := "/uploads/skills/oldicon.png",
    category := "programming", displayOrder := 1, isFeatured := false,
    createdAt := 0, updatedAt := 0 }

def skillUpdState0 : SkillState :=
  { files := [joinPath "sk" "oldicon.png"], skills := [skillExisting0] }

def skillJsonReq0 : SkillUpdateRequest :=
  { name := "", value := 0, iconURL := "", category := "", displayOrder := 0,
    isFeatured := false }

def skillJsonEnv0 : SkillUpdateEnv :=
  { idParam := some 2, bind := some skillJsonReq0, repoOk := true, now := 5 }

def projMissingEnv0 : ProjUpdateEnv :=
  { idParam := some 1, formFile := .missing, uuidStr := "x", saveOk := true,
    bind := some projUpdForm0, repoOk := true, now := 3,
    removeOldOk := true, removeNewOk := true }

def skillDelEnv0 : SkillDeleteEnv := { idParam := some 2, deleteOk := false, removeOk := true }

def certExisting0 : Certificate :=
  { id := 3, name := "Cert", imageURL := "/uploads/certificates/c.png", issueDate := 0,
    issuer := "-", credentialURL := "", displayOrder := 0 }

def certState0 : CertState := { files := [joinPath "ct" "c.png"], certs := [certExisting0] }

def certDelEnv0 : CertDeleteEnv := { idParam := some 3, deleteOk := true, removeOk := false }

def projDelEnv0 : ProjDeleteEnv := { idParam := some 1, deleteOk := true, removeOk := false }

/-- A variant-A Supabase service whose configured project id could not be
extracted (the code then builds an empty public URL). -/
def supaA0 : SupabaseA.Service := { projectID := [], bucket := "icons".data }

/-- A well-formed variant-A Supabase service. -/
def supaA1 : SupabaseA.Service := { projectID := "proj".data, bucket := "icons".data }

/-- A well-formed variant-B Supabase service with the canonical base URL. -/
def supaB1 : SupabaseB.Service :=
  { supabaseURL := "https://proj.supabase.co".data, bucket := "icons".data }

/-! ## Theorems -/

/-! ### Lemmas about the path helpers -/

theorem takeWhile_append_of_all {p : Char → Bool} (l₁ l₂ : List Char)
    (h : ∀ c ∈ l₁, p c = true) :
    (l₁ ++ l₂).takeWhile p = l₁ ++ l₂.takeWhile p := by
  induction l₁ with
  | nil => simp
  | cons c cs ih =>
    have hc : p c = true := h c (List.mem_cons_self c cs)
    simp [List.takeWhile_cons, hc]
    exact ih (fun d hd => h d (List.mem_cons_of_mem c hd))

theorem baseChars_append (l₁ l₂ : List Char) (h : '/' ∉ l₂) :
    baseChars (l₁ ++ '/' :: l₂) = l₂ := by
  unfold baseChars
  have hrev : (l₁ ++ '/' :: l₂).reverse = l₂.reverse ++ '/' :: l₁.reverse := by
    simp
  rw [hrev]
  have hall : ∀ c ∈ l₂.reverse, (fun c => decide (c ≠ '/')) c = true := by
    intro c hc
    simp only [decide_eq_true_eq]
    intro hceq
    exact h (by simpa [hceq] using List.mem_reverse.mp hc)
  rw [takeWhile_append_of_all _ _ hall]
  simp [List.takeWhile_cons]

theorem extChars_no_slash (l : List Char) : '/' ∉ extChars l := by
  unfold extChars
  intro hmem
  by_cases hdot : '.' ∈ l.reverse.takeWhile (fun c => c ≠ '/')
  · simp only [if_pos hdot, List.mem_reverse, List.mem_append] at hmem
    rcases hmem with hmem | hmem
    · have h1 := List.takeWhile_subset (l := l.reverse.takeWhile (fun c => c ≠ '/'))
        (p := fun c => c ≠ '.') hmem
      have h2 := List.mem_takeWhile_imp h1
      simp at h2
    · simp at hmem
  · rw [if_neg hdot] at hmem
    simp at hmem

/-! ### Lemmas about the experience repository -/

theorem stampResp_expID (i b : Nat) (l : List ExperienceResponsibility) :
    ∀ r ∈ stampResp i b l, r.experienceID = i := by
  induction l generalizing b with
  | nil => simp [stampResp]
  | cons x xs ih =>
    intro r hr
    simp only [stampResp, List.mem_cons] at hr
    rcases hr with h | h
    · rw [h]
    · exact ih (b + 1) r h

theorem stampSkills_expID (i : Nat) (l : List ExperienceSkill) :
    ∀ r ∈ stampSkills i l, r.experienceID = i := by
  intro r hr
  simp only [stampSkills, List.mem_map] at hr
  obtain ⟨s, _, rfl⟩ := hr
  rfl

theorem insertSkillsIgnoreDup_filter (i : Nat) :
    ∀ (S T : List ExperienceSkill) (seen : List (Nat × String)),
      (∀ r ∈ S, r.experienceID = i) →
      (∀ name : String,
        ((i, name) ∈ seen ↔ ∃ q ∈ T, q.experienceID = i ∧ q.skillName = name)) →
      (insertSkillsIgnoreDup T S).filter (fun r => r.experienceID = i)
        = T.filter (fun r => r.experienceID = i) ++ dedupSkills seen S := by
  intro S
  induction S with
  | nil => intro T seen _ _; simp [insertSkillsIgnoreDup, dedupSkills]
  | cons r rs ih =>
    intro T seen hS hinv
    have hri : r.experienceID = i := hS r (List.mem_cons_self r rs)
    have hrs : ∀ q ∈ rs, q.experienceID = i :=
      fun q hq => hS q (List.mem_cons_of_mem r hq)
    by_cases hc :
        T.any (fun q => q.experienceID = r.experienceID ∧ q.skillName = r.skillName) = true
    · -- conflicting key already in the table: the row is dropped
      have hseen : (i, r.skillName) ∈ seen := by
        rw [hinv r.skillName]
        simp only [List.any_eq_true, decide_eq_true_eq] at hc
        obtain ⟨q, hq, hq1, hq2⟩ := hc
        exact ⟨q, hq, by rw [hq1, hri], hq2⟩
      rw [insertSkillsIgnoreDup, if_pos hc, dedupSkills, if_pos (by rw [hri]; exact hseen)]
      exact ih T seen hrs hinv
    · -- fresh key: the row is appended
      have hseen : (i, r.skillName) ∉ seen := by
        intro hmem
        apply hc
        rw [hinv r.skillName] at hmem
        obtain ⟨q, hq, hq1, hq2⟩ := hmem
        simp only [List.any_eq_true, decide_eq_true_eq]
        exact ⟨q, hq, by rw [hq1, hri], hq2⟩
      rw [insertSkillsIgnoreDup, if_neg hc, dedupSkills, if_neg (by rw [hri]; exact hseen)]
      have hinv' : ∀ name : String,
          ((i, name) ∈ ((r.experienceID, r.skillName) :: seen)
            ↔ ∃ q ∈ T ++ [r], q.experienceID = i ∧ q.skillName = name) := by
        intro name
        constructor
        · intro hmem
          rcases List.mem_cons.mp hmem with h | h
          · exact ⟨r, List.mem_append_right T (List.mem_singleton_self r),
              hri, by injection h with h1 h2; exact h2.symm⟩
          · obtain ⟨q, hq, hq1, hq2⟩ := (hinv name).mp h
            exact ⟨q, List.mem_append_left _ hq, hq1, hq2⟩
        · rintro ⟨q, hq, hq1, hq2⟩
          rcases List.mem_append.mp hq with h | h
          · exact List.mem_cons_of_mem _ ((hinv name).mpr ⟨q, h, hq1, hq2⟩)
          · rw [List.mem_singleton] at h
            subst h
            exact List.mem_cons.mpr (Or.inl (by rw [hq1, hq2]))
      rw [ih (T ++ [r]) ((r.experienceID, r.skillName) :: seen) hrs hinv']
      rw [List.filter_append]
      simp [hri]

theorem mem_dedupSkills :
    ∀ (S : List ExperienceSkill) (seen : List (Nat × String)) (r : ExperienceSkill),
      r ∈ dedupSkills seen S ↔ r ∈ S ∧ (r.experienceID, r.skillName) ∉ seen := by
  intro S
  induction S with
  | nil => intro seen r; simp [dedupSkills]
  | cons q qs ih =>
    intro seen r
    by_cases hq : (q.experienceID, q.skillName) ∈ seen
    · rw [dedupSkills, if_pos hq, ih]
      constructor
      · rintro ⟨h1, h2⟩
        exact ⟨List.mem_cons_of_mem q h1, h2⟩
      · rintro ⟨h1, h2⟩
        rcases List.mem_cons.mp h1 with h | h
        · subst h; exact absurd hq h2
        · exact ⟨h, h2⟩
    · rw [dedupSkills, if_neg hq]
      constructor
      · intro hmem
        rcases List.mem_cons.mp hmem with h | h
        · subst h
          exact ⟨List.mem_cons_self r qs, hq⟩
        · obtain ⟨h1, h2⟩ := (ih _ r).mp h
          refine ⟨List.mem_cons_of_mem q h1, fun hmem2 => h2 ?_⟩
          exact List.mem_cons_of_mem _ hmem2
      · rintro ⟨h1, h2⟩
        by_cases hrq : r = q
        · subst hrq
          exact List.mem_cons_self r _
        · have h : r ∈ qs := by
            rcases List.mem_cons.mp h1 with h | h
            · exact absurd h hrq
            · exact h
          refine List.mem_cons_of_mem q ((ih _ r).mpr ⟨h, fun hmem2 => ?_⟩)
          rcases List.mem_cons.mp hmem2 with h3 | h3
          · -- equal conflict keys mean the same two-field row
            apply hrq
            cases r
            cases q
            injection h3 with h4 h5
            simp_all
          · exact h2 h3

theorem filter_ne_then_eq (i : Nat) (A : List ExperienceResponsibility) :
    (A.filter (fun r : ExperienceResponsibility => r.experienceID ≠ i)).filter
      (fun r : ExperienceResponsibility => r.experienceID = i) = [] := by
  rw [List.filter_eq_nil_iff]
  intro a ha
  have h := (List.mem_filter.mp ha).2
  simp at h ⊢
  exact h

theorem filter_stamped_resp (i base : Nat) (l : List ExperienceResponsibility) :
    (stampResp i base l).filter (fun r : ExperienceResponsibility => r.experienceID = i)
      = stampResp i base l := by
  rw [List.filter_eq_self]
  intro a ha
  simpa using stampResp_expID i base l a ha

theorem respAfterReplace (i base : Nat) (A : List ExperienceResponsibility)
    (l : List ExperienceResponsibility) :
    ((A.filter (fun r : ExperienceResponsibility => r.experienceID ≠ i)) ++ stampResp i base l).filter
      (fun r : ExperienceResponsibility => r.experienceID = i) = stampResp i base l := by
  rw [List.filter_append, filter_ne_then_eq, filter_stamped_resp, List.nil_append]

theorem skillsAfterReplace (i : Nat) (T S : List ExperienceSkill)
    (hT : ∀ r ∈ T, r.experienceID ≠ i) (hS : ∀ r ∈ S, r.experienceID = i) :
    (insertSkillsIgnoreDup T S).filter (fun r : ExperienceSkill => r.experienceID = i)
      = dedupSkills [] S := by
  have hinv : ∀ name : String,
      (((i, name) : Nat × String) ∈ ([] : List (Nat × String))
        ↔ ∃ q ∈ T, q.experienceID = i ∧ q.skillName = name) := by
    intro name
    constructor
    · intro h; exact absurd h (List.not_mem_nil _)
    · rintro ⟨q, hq, hq1, _⟩
      exact absurd hq1 (hT q hq)
  have h := insertSkillsIgnoreDup_filter i S T [] hS hinv
  have hTnil : T.filter (fun r : ExperienceSkill => r.experienceID = i) = [] := by
    rw [List.filter_eq_nil_iff]
    intro a ha
    simpa using hT a ha
  rw [h, hTnil, List.nil_append]

theorem updateExpBody_ok_shape (env : ExpUpdateEnv) (db : ExpDb) (e : Experience)
    (x : Experience) (d : ExpDb) (h : updateExpBody env db e = .ok (x, d)) :
    d.responsibilities
        = db.responsibilities.filter (fun r : ExperienceResponsibility => r.experienceID ≠ e.id)
            ++ stampResp e.id env.respIdBase e.responsibilities
      ∧ d.skills
        = insertSkillsIgnoreDup
            (db.skills.filter (fun r : ExperienceSkill => r.experienceID ≠ e.id))
            (stampSkills e.id e.skills) := by
  simp only [updateExpBody] at h
  repeat' split at h
  all_goals try exact absurd h (by intro hcon; exact Except.noConfusion hcon)
  all_goals
    injection h with h'
  all_goals
    injection h' with hx hd
  all_goals
    rw [← hd]
  all_goals
    simp_all [insertSkillsIgnoreDup]

/-- C3: after a successful `UpdateExperienceWithRelations` the stored child
rows for the parent id are exactly the submitted (stamped) responsibilities
and the submitted skills (the stored skill-row set is identical to the
submitted set; exact duplicate conflict keys are collapsed); when any step
fails, the transaction rolls back and the database is completely unchanged
(atomicity), including when a submitted child list is empty. -/
theorem c3_update_replaces_children_atomically (env : ExpUpdateEnv) (db : ExpDb) (e : Experience) :
    ((updateExperienceWithRelations env db e).1.isOk = true →
        ((updateExperienceWithRelations env db e).2.responsibilities.filter
            (fun r : ExperienceResponsibility => r.experienceID = e.id)
          = stampResp e.id env.respIdBase e.responsibilities)
        ∧ ((updateExperienceWithRelations env db e).2.skills.filter
            (fun r : ExperienceSkill => r.experienceID = e.id)
          = dedupSkills [] (stampSkills e.id e.skills))
        ∧ (∀ r : ExperienceSkill,
            r ∈ (updateExperienceWithRelations env db e).2.skills.filter
              (fun r : ExperienceSkill => r.experienceID = e.id)
            ↔ r ∈ stampSkills e.id e.skills))
    ∧ ((updateExperienceWithRelations env db e).1.isOk = false →
        (updateExperienceWithRelations env db e).2 = db) := by
  cases hbody : updateExpBody env db e with
  | error msg =>
    constructor
    · intro hok
      rw [updateExperienceWithRelations, hbody] at hok
      simp [Except.isOk, Except.toBool] at hok
    · intro _
      rw [updateExperienceWithRelations, hbody]
  | ok pair =>
    obtain ⟨e1, d⟩ := pair
    obtain ⟨hresp, hskills⟩ := updateExpBody_ok_shape env db e e1 d hbody
    constructor
    · intro _
      rw [updateExperienceWithRelations, hbody]
      have hT : ∀ r ∈ db.skills.filter (fun r : ExperienceSkill => r.experienceID ≠ e.id),
          r.experienceID ≠ e.id := by
        intro r hr
        have h2 := (List.mem_filter.mp hr).2
        simpa using h2
      refine ⟨?_, ?_, ?_⟩
      · rw [hresp, respAfterReplace]
      · rw [hskills, skillsAfterReplace e.id _ _ hT (stampSkills_expID e.id e.skills)]
      · intro r
        rw [hskills, skillsAfterReplace e.id _ _ hT (stampSkills_expID e.id e.skills),
          mem_dedupSkills]
        simp
    · intro hok
      rw [updateExperienceWithRelations, hbody] at hok
      simp [Except.isOk, Except.toBool] at hok

/-- Witness for the hypotheses of the C3 theorem: a concrete update in which
one prior responsibility and one prior skill are replaced by the submitted
sets (the submitted skill list contains a duplicate). -/
theorem c3_update_replaces_children_atomically_witness :
    ((updateExperienceWithRelations expEnvU expDb0 expSubmitU).1.isOk = true)
    ∧ ((updateExperienceWithRelations expEnvU expDb0 expSubmitU).2.responsibilities.filter
        (fun r : ExperienceResponsibility => r.experienceID = expSubmitU.id)
        = stampResp expSubmitU.id expEnvU.respIdBase expSubmitU.responsibilities)
    ∧ ((updateExperienceWithRelations expEnvU expDb0 expSubmitU).2.skills.filter
        (fun r : ExperienceSkill => r.experienceID = expSubmitU.id)
        = dedupSkills [] (stampSkills expSubmitU.id expSubmitU.skills)) := by
  have h := (c3_update_replaces_children_atomically expEnvU expDb0 expSubmitU).1 (by decide)
  exact ⟨by decide, h.1, h.2.1⟩

theorem createExpBody_ok_shape (env : ExpCreateEnv) (db : ExpDb) (e : Experience)
    (x : Experience) (d : ExpDb) (h : createExpBody env db e = .ok (x, d)) :
    x = { e with id := env.newId,
                 responsibilities := stampResp env.newId env.respIdBase e.responsibilities,
                 skills := stampSkills env.newId e.skills }
    ∧ d.responsibilities = db.responsibilities ++ stampResp env.newId env.respIdBase e.responsibilities
    ∧ d.skills = insertSkillsIgnoreDup db.skills (stampSkills env.newId e.skills)
    ∧ d.experiences = db.experiences ++ [parentRow x] := by
  simp only [createExpBody] at h
  repeat' split at h
  all_goals try exact absurd h (by intro hcon; exact Except.noConfusion hcon)
  all_goals
    injection h with h'
  all_goals
    injection h' with hx hd
  all_goals
    rw [← hd, ← hx]
  all_goals
    simp_all [insertSkillsIgnoreDup]

theorem createExpBody_success (env : ExpCreateEnv) (db : ExpDb) (e : Experience)
    (h1 : env.createExpOk = true) (h2 : env.createRespOk = true)
    (h3 : env.createSkillOk = true) :
    ∃ x d, createExpBody env db e = .ok (x, d) := by
  unfold createExpBody
  rw [h1]
  simp only [Bool.true_eq_false, if_false, ne_eq, and_false, if_true]
  rw [h2, h3]
  simp only [Bool.true_eq_false, and_false, if_neg (by simp : ¬ (_ ∧ False))]
  exact ⟨_, _, rfl⟩

theorem dedupSkills_filter_key_zero (i : Nat) (name : String) :
    ∀ (S : List ExperienceSkill) (seen : List (Nat × String)),
      (∀ r ∈ S, r.experienceID = i) →
      (i, name) ∈ seen →
      (dedupSkills seen S).filter
        (fun r : ExperienceSkill => r.experienceID = i ∧ r.skillName = name) = [] := by
  intro S
  induction S with
  | nil => intro seen _ _; simp [dedupSkills]
  | cons q qs ih =>
    intro seen hall hseen
    have hqi : q.experienceID = i := hall q (List.mem_cons_self q qs)
    have hqs : ∀ r ∈ qs, r.experienceID = i := fun r hr => hall r (List.mem_cons_of_mem q hr)
    by_cases hq : (q.experienceID, q.skillName) ∈ seen
    · rw [dedupSkills, if_pos hq]
      exact ih seen hqs hseen
    · rw [dedupSkills, if_neg hq]
      have hqname : ¬ (q.experienceID = i ∧ q.skillName = name) := by
        rintro ⟨_, h2⟩
        exact hq (by rw [hqi, h2]; exact hseen)
      rw [List.filter_cons, if_neg (by simpa using hqname)]
      exact ih _ hqs (List.mem_cons_of_mem _ hseen)

theorem dedupSkills_filter_key_one (i : Nat) (name : String) :
    ∀ (S : List ExperienceSkill) (seen : List (Nat × String)),
      (∀ r ∈ S, r.experienceID = i) →
      (i, name) ∉ seen →
      (∃ r ∈ S, r.skillName = name) →
      (dedupSkills seen S).filter
        (fun r : ExperienceSkill => r.experienceID = i ∧ r.skillName = name)
        = [{ experienceID := i, skillName := name }] := by
  intro S
  induction S with
  | nil => intro seen _ _ hex; simp at hex
  | cons q qs ih =>
    intro seen hall hseen hex
    have hqi : q.experienceID = i := hall q (List.mem_cons_self q qs)
    have hqs : ∀ r ∈ qs, r.experienceID = i := fun r hr => hall r (List.mem_cons_of_mem q hr)
    by_cases hqname : q.skillName = name
    · have hkey : (q.experienceID, q.skillName) = (i, name) := by rw [hqi, hqname]
      have hq : (q.experienceID, q.skillName) ∉ seen := by rw [hkey]; exact hseen
      rw [dedupSkills, if_neg hq]
      have hqrow : q = { experienceID := i, skillName := name } := by
        cases q
        simp_all
      rw [List.filter_cons, if_pos (by simp [hqi, hqname])]
      rw [dedupSkills_filter_key_zero i name qs _ hqs (by rw [hkey]; exact List.mem_cons_self _ _)]
      rw [hqrow]
    · have hex' : ∃ r ∈ qs, r.skillName = name := by
        obtain ⟨r, hr, hrname⟩ := hex
        rcases List.mem_cons.mp hr with h | h
        · subst h; exact absurd hrname hqname
        · exact ⟨r, h, hrname⟩
      by_cases hq : (q.experienceID, q.skillName) ∈ seen
      · rw [dedupSkills, if_pos hq]
        exact ih seen hqs hseen hex'
      · rw [dedupSkills, if_neg hq]
        rw [List.filter_cons, if_neg (by simp [hqname])]
        refine ih _ hqs ?_ hex'
        intro hmem
        rcases List.mem_cons.mp hmem with h | h
        · exact hqname (by injection h with h1 h2; exact h2.symm)
        · exact hseen h

theorem dedupSkills_eq_self :
    ∀ (S : List ExperienceSkill) (seen : List (Nat × String)),
      ((S.map (fun r : ExperienceSkill => (r.experienceID, r.skillName))).Nodup) →
      (∀ r ∈ S, (r.experienceID, r.skillName) ∉ seen) →
      dedupSkills seen S = S := by
  intro S
  induction S with
  | nil => intro seen _ _; simp [dedupSkills]
  | cons q qs ih =>
    intro seen hnodup hout
    rw [dedupSkills, if_neg (hout q (List.mem_cons_self q qs))]
    rw [List.map_cons, List.nodup_cons] at hnodup
    congr 1
    refine ih _ hnodup.2 ?_
    intro r hr hmem
    rcases List.mem_cons.mp hmem with h | h
    · exact hnodup.1 (h ▸ List.mem_map_of_mem _ hr)
    · exact hout r (List.mem_cons_of_mem q hr) h

/-- C4 counterexample: deleting a non-existent experience id is a silent
no-op.  On an empty database with all SQL statements succeeding,
`DeleteExperienceWithRelations` returns success (not a not-found error),
contradicting the claim that both delete operations report not-found. -/
theorem c4_counterexample_experience_delete_silent :
    (deleteExperienceWithRelations
        { delSkillOk := true, delRespOk := true, delExpOk := true } expDbEmpty 1).1
      = Except.ok ()
    ∧ (deleteExperienceWithRelations
        { delSkillOk := true, delRespOk := true, delExpOk := true } expDbEmpty 1).2
      = expDbEmpty := by
  constructor <;> rfl

/-- C4 amended: `DeleteProjekRepository` reports `project not found` for an
unresolvable id and performs no writes, while `DeleteExperienceWithRelations`
performs no writes but returns success (a silent no-op), because GORM's
`Delete` does not treat zero affected rows as an error. -/
theorem c4_amended_delete_nonexistent (db : List Project) (edb : ExpDb)
    (env : ExpDeleteEnv) (id : Nat)
    (hp : ∀ p ∈ db, p.id ≠ id)
    (he1 : ∀ r ∈ edb.experiences, r.id ≠ id)
    (he2 : ∀ r ∈ edb.responsibilities, r.experienceID ≠ id)
    (he3 : ∀ r ∈ edb.skills, r.experienceID ≠ id)
    (ho1 : env.delSkillOk = true) (ho2 : env.delRespOk = true) (ho3 : env.delExpOk = true) :
    deleteProjekRepository true db id = (.error "project not found", db)
    ∧ deleteExperienceWithRelations env edb id = (.ok (), edb) := by
  constructor
  · unfold deleteProjekRepository
    have hempty : db.filter (fun p : Project => p.id = id) = [] := by
      rw [List.filter_eq_nil_iff]
      intro p hpmem
      simpa using hp p hpmem
    have hself : db.filter (fun p : Project => p.id ≠ id) = db := by
      rw [List.filter_eq_self]
      intro p hpmem
      simpa using hp p hpmem
    simp [hempty, hself]
  · have f1 : List.filter (fun r : ExperienceSkill => !decide (r.experienceID = id))
        edb.skills = edb.skills := by
      rw [List.filter_eq_self]
      intro r hr
      simpa using he3 r hr
    have f2 : List.filter (fun r : ExperienceResponsibility => !decide (r.experienceID = id))
        edb.responsibilities = edb.responsibilities := by
      rw [List.filter_eq_self]
      intro r hr
      simpa using he2 r hr
    have f3 : List.filter (fun r : ExperienceRow => !decide (r.id = id))
        edb.experiences = edb.experiences := by
      rw [List.filter_eq_self]
      intro r hr
      simpa using he1 r hr
    simp [deleteExperienceWithRelations, deleteExpBody, ho1, ho2, ho3, f1, f2, f3]

/-- Witness for the C4 amended theorem at a concrete unresolvable id. -/
theorem c4_amended_delete_nonexistent_witness :
    deleteProjekRepository true [] 9 = (.error "project not found", [])
    ∧ deleteExperienceWithRelations
        { delSkillOk := true, delRespOk := true, delExpOk := true } expDb0 9
      = (.ok (), expDb0) := by
  exact c4_amended_delete_nonexistent [] expDb0
    { delSkillOk := true, delRespOk := true, delExpOk := true } 9
    (by decide) (by decide) (by decide) (by decide) rfl rfl rfl

/-- C5: a create whose skill list repeats a (experience id, skill name) pair
succeeds, and exactly one row with that pair survives in the stored skill
table — the duplicate is silently dropped by the insert-or-ignore conflict
policy, without aborting the batch or the transaction. -/
theorem c5_create_ignores_duplicate_skill (env : ExpCreateEnv) (db : ExpDb) (e : Experience)
    (name : String)
    (h1 : env.createExpOk = true) (h2 : env.createRespOk = true) (h3 : env.createSkillOk = true)
    (hfresh : ∀ r ∈ db.skills, r.experienceID ≠ env.newId)
    (hname : ∃ r ∈ e.skills, r.skillName = name) :
    (createExperienceWithRelations env db e).1.isOk = true
    ∧ (createExperienceWithRelations env db e).2.skills.filter
        (fun r : ExperienceSkill => r.experienceID = env.newId ∧ r.skillName = name)
      = [{ experienceID := env.newId, skillName := name }] := by
  obtain ⟨x, d, hbody⟩ := createExpBody_success env db e h1 h2 h3
  obtain ⟨hx, hresp, hskills, hexp⟩ := createExpBody_ok_shape env db e x d hbody
  constructor
  · simp only [createExperienceWithRelations, hbody]
    rfl
  · simp only [createExperienceWithRelations, hbody]
    rw [hskills]
    have hsplitfilter : ∀ l : List ExperienceSkill,
        l.filter (fun r : ExperienceSkill => r.experienceID = env.newId ∧ r.skillName = name)
          = (l.filter (fun r : ExperienceSkill => r.experienceID = env.newId)).filter
              (fun r : ExperienceSkill => r.experienceID = env.newId ∧ r.skillName = name) := by
      intro l
      rw [List.filter_filter]
      refine (List.filter_congr ?_)
      intro a _
      by_cases hA : a.experienceID = env.newId <;> by_cases hB : a.skillName = name <;>
        simp [hA, hB]
    rw [hsplitfilter]
    rw [skillsAfterReplace env.newId db.skills (stampSkills env.newId e.skills) hfresh
      (stampSkills_expID env.newId e.skills)]
    refine dedupSkills_filter_key_one env.newId name (stampSkills env.newId e.skills) []
      (stampSkills_expID env.newId e.skills) (List.not_mem_nil _) ?_
    obtain ⟨r, hr, hrname⟩ := hname
    exact ⟨{ r with experienceID := env.newId }, List.mem_map_of_mem _ hr, hrname⟩

/-- Witness for the C5 theorem: the submitted skill list repeats the pair
(new id, Go) and exactly one stored row with that pair survives. -/
theorem c5_create_ignores_duplicate_skill_witness :
    (createExperienceWithRelations expEnvC expDbEmpty expSubmitC).1.isOk = true
    ∧ (createExperienceWithRelations expEnvC expDbEmpty expSubmitC).2.skills.filter
        (fun r : ExperienceSkill => r.experienceID = expEnvC.newId ∧ r.skillName = "Go")
      = [{ experienceID := expEnvC.newId, skillName := "Go" }] :=
  c5_create_ignores_duplicate_skill expEnvC expDbEmpty expSubmitC "Go"
    rfl rfl rfl (by decide) (by decide)

/-- C6 counterexample: the claim asserts that after a create the returned
child collections match what was submitted; submitting a skill list with a
duplicate name yields a read-back skill collection of 2 rows where 3 entries
were submitted, so the returned collection does not match the submission.
(The skill rows carry no display-order field at all, so the claimed
ascending display-order sort of the skill collection is not satisfied either:
`Preload("Skills")` has no ordering clause.) -/
theorem c6_counterexample_skills_not_matching_submission :
    (getExperienceByIDWithRelations
        (createExperienceWithRelations expEnvC expDbEmpty expSubmitC).2 expEnvC.newId).map
      (fun ex : Experience => ex.skills.length) = .ok 2
    ∧ expSubmitC.skills.length = 3 := by
  constructor <;> rfl

/-- C6 amended: immediately after a successful `CreateExperienceWithRelations`
with a fresh id and duplicate-free skill names, `GetExperienceByIDWithRelations`
returns the parent with the submitted responsibilities sorted in ascending
display order (a sorted permutation of the stamped submitted list), and the
submitted skills exactly as stored, in submission order — the skill rows have
no display-order field and their preload applies no ordering clause. -/
theorem c6_amended_get_after_create (env : ExpCreateEnv) (db : ExpDb) (e : Experience)
    (h1 : env.createExpOk = true) (h2 : env.createRespOk = true) (h3 : env.createSkillOk = true)
    (hfresh1 : ∀ r ∈ db.experiences, r.id ≠ env.newId)
    (hfresh2 : ∀ r ∈ db.responsibilities, r.experienceID ≠ env.newId)
    (hfresh3 : ∀ r ∈ db.skills, r.experienceID ≠ env.newId)
    (hnodup : (e.skills.map (fun s : ExperienceSkill => s.skillName)).Nodup) :
    getExperienceByIDWithRelations (createExperienceWithRelations env db e).2 env.newId
      = .ok { e with id := env.newId,
                     responsibilities := List.insertionSort
                       (fun a b : ExperienceResponsibility => a.displayOrder ≤ b.displayOrder)
                       (stampResp env.newId env.respIdBase e.responsibilities),
                     skills := stampSkills env.newId e.skills }
    ∧ List.Sorted (fun a b : ExperienceResponsibility => a.displayOrder ≤ b.displayOrder)
        (List.insertionSort (fun a b : ExperienceResponsibility => a.displayOrder ≤ b.displayOrder)
          (stampResp env.newId env.respIdBase e.responsibilities))
    ∧ (List.insertionSort (fun a b : ExperienceResponsibility => a.displayOrder ≤ b.displayOrder)
        (stampResp env.newId env.respIdBase e.responsibilities)).Perm
        (stampResp env.newId env.respIdBase e.responsibilities) := by
  obtain ⟨x, d, hbody⟩ := createExpBody_success env db e h1 h2 h3
  obtain ⟨hx, hresp, hskills, hexp⟩ := createExpBody_ok_shape env db e x d hbody
  refine ⟨?_, List.sorted_insertionSort _ _, List.perm_insertionSort _ _⟩
  simp only [createExperienceWithRelations, hbody]
  unfold getExperienceByIDWithRelations
  have hfind : d.experiences.find? (fun r : ExperienceRow => r.id = env.newId)
      = some (parentRow x) := by
    rw [hexp, List.find?_append]
    have hnone : db.experiences.find? (fun r : ExperienceRow => r.id = env.newId) = none := by
      rw [List.find?_eq_none]
      intro a ha
      simpa using hfresh1 a ha
    rw [hnone]
    simp [List.find?, hx, parentRow]
  rw [hfind]
  have hrespfilter : d.responsibilities.filter
      (fun r : ExperienceResponsibility => r.experienceID = env.newId)
      = stampResp env.newId env.respIdBase e.responsibilities := by
    rw [hresp, List.filter_append]
    have hnil : db.responsibilities.filter
        (fun r : ExperienceResponsibility => r.experienceID = env.newId) = [] := by
      rw [List.filter_eq_nil_iff]
      intro a ha
      simpa using hfresh2 a ha
    rw [hnil, filter_stamped_resp, List.nil_append]
  have hskillsfilter : d.skills.filter
      (fun r : ExperienceSkill => r.experienceID = env.newId)
      = stampSkills env.newId e.skills := by
    rw [hskills, skillsAfterReplace env.newId db.skills (stampSkills env.newId e.skills)
      hfresh3 (stampSkills_expID env.newId e.skills)]
    refine dedupSkills_eq_self (stampSkills env.newId e.skills) [] ?_
      (fun r _ hmem => absurd hmem (List.not_mem_nil _))
    have hmapmap : (stampSkills env.newId e.skills).map
        (fun r : ExperienceSkill => (r.experienceID, r.skillName))
        = (e.skills.map (fun s : ExperienceSkill => s.skillName)).map
            (fun n => (env.newId, n)) := by
      unfold stampSkills
      rw [List.map_map, List.map_map]
      rfl
    rw [hmapmap]
    refine List.Nodup.map ?_ hnodup
    intro a b hab
    injection hab
  rw [hrespfilter, hskillsfilter, hx]
  simp [parentRow]

/-- Witness for the C6 amended theorem at a concrete fresh create whose
responsibilities are submitted out of display order and whose skill names are
distinct. -/
theorem c6_amended_get_after_create_witness :
    getExperienceByIDWithRelations
        (createExperienceWithRelations expEnvC expDbEmpty expSubmitNodup).2 expEnvC.newId
      = .ok { expSubmitNodup with
                     id := expEnvC.newId,
                     responsibilities := List.insertionSort
                       (fun a b : ExperienceResponsibility => a.displayOrder ≤ b.displayOrder)
                       (stampResp expEnvC.newId expEnvC.respIdBase expSubmitNodup.responsibilities),
                     skills := stampSkills expEnvC.newId expSubmitNodup.skills }
    ∧ List.Sorted (fun a b : ExperienceResponsibility => a.displayOrder ≤ b.displayOrder)
        (List.insertionSort (fun a b : ExperienceResponsibility => a.displayOrder ≤ b.displayOrder)
          (stampResp expEnvC.newId expEnvC.respIdBase expSubmitNodup.responsibilities))
    ∧ (List.insertionSort (fun a b : ExperienceResponsibility => a.displayOrder ≤ b.displayOrder)
        (stampResp expEnvC.newId expEnvC.respIdBase expSubmitNodup.responsibilities)).Perm
        (stampResp expEnvC.newId expEnvC.respIdBase expSubmitNodup.responsibilities) :=
  c6_amended_get_after_create expEnvC expDbEmpty expSubmitNodup
    rfl rfl rfl (by decide) (by decide) (by decide) (by decide)

/-! ### Path lemmas shared by the service claims -/

theorem filepathBase_concat (a q s : String) (ha : a.data = q.data ++ ['/'])
    (h : '/' ∉ s.data) : filepathBase (a ++ s) = s := by
  unfold filepathBase
  have hdata : (a ++ s).data = q.data ++ '/' :: s.data := by
    rw [String.data_append, ha, List.append_assoc]
    rfl
  rw [hdata, baseChars_append _ _ h]

theorem no_slash_gen_name (pre uuid fn : String) (hpre : '/' ∉ pre.data)
    (huuid : '/' ∉ uuid.data) : '/' ∉ (pre ++ uuid ++ filepathExt fn).data := by
  intro h
  rw [String.data_append, String.data_append] at h
  rcases List.mem_append.mp h with h1 | h2
  · rcases List.mem_append.mp h1 with h3 | h4
    · exact hpre h3
    · exact huuid h4
  · exact extChars_no_slash _ h2

theorem uploads_projects_ne_hash (s : String) : ("/uploads/projects/" ++ s) ≠ "#" := by
  intro h
  have hlen := congrArg String.length h
  rw [String.length_append] at hlen
  rw [show ("/uploads/projects/" : String).length = 18 from rfl,
      show ("#" : String).length = 1 from rfl] at hlen
  omega

theorem uploads_skills_ne_empty (s : String) : ("/uploads/skills/" ++ s) ≠ "" := by
  intro h
  have hlen := congrArg String.length h
  rw [String.length_append] at hlen
  rw [show ("/uploads/skills/" : String).length = 16 from rfl,
      show ("" : String).length = 0 from rfl] at hlen
  omega

theorem not_mem_filter_ne_self (x : String) (l : List String) :
    x ∉ l.filter (fun p => p ≠ x) := by
  intro h
  have h2 := (List.mem_filter.mp h).2
  simp at h2

/-- C1: in both create-with-upload paths (`CreateProjekWithImageService` and
skill `CreateWithIcon`), when the upload succeeded and the repository insert
fails, the call returns an error and the just-uploaded file is no longer in
the upload directory — the compensating delete ran before returning (the
statement assumes the compensating `os.Remove` itself succeeds and that the
generated uuid contains no path separator). -/
theorem c1_create_deletes_upload_on_persist_failure :
    (∀ (uploadPath : String) (env : ProjCreateEnv) (st : ProjState)
        (form : ProjectForm) (f : FileHeader),
      env.bind = some form → form.title ≠ "" → form.description ≠ "" → form.codeURL ≠ "" →
      env.formFile = .file f → Projectservice.validateFile f = .ok () →
      env.mkdirOk = true → env.saveOk = true → env.repoOk = false → env.removeOk = true →
      '/' ∉ env.uuidStr.data →
      ((Projectservice.createProjekWithImageService uploadPath env st).1.isOk = false
        ∧ joinPath uploadPath ("project_" ++ env.uuidStr ++ filepathExt f.filename)
            ∉ (Projectservice.createProjekWithImageService uploadPath env st).2.files))
    ∧ (∀ (uploadPath : String) (env : SkillCreateEnv) (st : SkillState)
        (form : SkillForm) (f : FileHeader),
      env.bind = some form → form.name ≠ "" → ¬(form.value < 0 ∨ form.value > 100) →
      env.formFile = .file f → Skillservice.validateFile f = .ok () →
      env.saveOk = true → env.repoOk = false → env.removeOk = true →
      '/' ∉ env.uuidStr.data →
      ((Skillservice.createWithIcon uploadPath env st).1.isOk = false
        ∧ joinPath uploadPath ("skill_" ++ env.uuidStr ++ filepathExt f.filename)
            ∉ (Skillservice.createWithIcon uploadPath env st).2.files)) := by
  constructor
  · intro uploadPath env st form f hbind htitle hdesc hcode hff hval hmk hsave hrepo hremove huuid
    have hbase : filepathBase ("/uploads/projects/"
        ++ ("project_" ++ env.uuidStr ++ filepathExt f.filename))
        = "project_" ++ env.uuidStr ++ filepathExt f.filename :=
      filepathBase_concat _ "/uploads/projects" _ rfl
        (no_slash_gen_name "project_" env.uuidStr f.filename (by decide) huuid)
    have hneq := uploads_projects_ne_hash ("project_" ++ env.uuidStr ++ filepathExt f.filename)
    simp only [Projectservice.createProjekWithImageService,
      Projectservice.createProjekFinish, createProjekRepository,
      hbind, hff, hval, hmk, hsave, hrepo, hremove,
      htitle, hdesc, hcode, hneq, hbase]
    simp only [Bool.true_eq_false, Bool.false_eq_true, if_false, if_true, ite_false, ite_true,
      reduceIte, not_false_eq_true, and_true, true_and, and_self, if_pos,
      List.mem_cons, true_or, or_true]
    rw [if_pos hneq]
    exact ⟨rfl, not_mem_filter_ne_self _ _⟩
  · intro uploadPath env st form f hbind hname hvalue hff hval hsave hrepo hremove huuid
    have hbase : filepathBase ("/uploads/skills/"
        ++ ("skill_" ++ env.uuidStr ++ filepathExt f.filename))
        = "skill_" ++ env.uuidStr ++ filepathExt f.filename :=
      filepathBase_concat _ "/uploads/skills" _ rfl
        (no_slash_gen_name "skill_" env.uuidStr f.filename (by decide) huuid)
    have hneq := uploads_skills_ne_empty ("skill_" ++ env.uuidStr ++ filepathExt f.filename)
    simp only [Skillservice.createWithIcon, Skillservice.createWithIconFinish, skillRepoCreate,
      hbind, hff, hval, hsave, hrepo, hremove, hname, hvalue, hneq, hbase]
    simp only [Bool.true_eq_false, Bool.false_eq_true, if_false, if_true, ite_false, ite_true,
      reduceIte, not_false_eq_true, and_true, true_and, and_self]
    rw [if_pos hneq]
    exact ⟨rfl, not_mem_filter_ne_self _ _⟩

theorem updateProjekFinish_files_noFile (uploadPath : String) (env : ProjUpdateEnv)
    (existing : Project) (imageURL : String) (st : ProjState) :
    (Projectservice.updateProjekFinish uploadPath env existing false imageURL st).2.files
      = st.files := by
  simp only [Projectservice.updateProjekFinish]
  repeat' split
  all_goals simp_all

theorem updateWithIconFinish_files_noFile (uploadPath : String) (env : SkillUpdateIconEnv)
    (existing : Skill) (form : SkillForm) (st : SkillState) :
    (Skillservice.updateWithIconFinish uploadPath env existing false form st).2.files
      = st.files := by
  simp only [Skillservice.updateWithIconFinish]
  repeat' split
  all_goals simp_all

/-- C2: in both update-with-upload paths (`UpdateProjekService` and skill
`UpdateWithIcon`), the previously stored file can only disappear from the
upload directory if a new file was supplied, passed validation, and its save
call succeeded — in every execution that fails before the new upload
succeeds, the previous stored file is still present. -/
theorem c2_old_file_deleted_only_after_new_save :
    (∀ (uploadPath : String) (env : ProjUpdateEnv) (st : ProjState) (id : Nat)
        (existing : Project),
      env.idParam = some id →
      getProjekRepository st.projects id = .ok existing →
      joinPath uploadPath (filepathBase existing.imageURL) ∈ st.files →
      joinPath uploadPath (filepathBase existing.imageURL)
          ∉ (Projectservice.updateProjekService uploadPath env st).2.files →
      ∃ f, env.formFile = .file f ∧ Projectservice.validateFile f = .ok ()
        ∧ env.saveOk = true)
    ∧ (∀ (uploadPath : String) (env : SkillUpdateIconEnv) (st : SkillState) (id : Nat)
        (existing : Skill),
      env.idParam = some id →
      skillGetByID st.skills id = .ok existing →
      joinPath uploadPath (filepathBase existing.iconURL) ∈ st.files →
      joinPath uploadPath (filepathBase existing.iconURL)
          ∉ (Skillservice.updateWithIcon uploadPath env st).2.files →
      ∃ f, env.formFile = .file f ∧ Skillservice.validateFile f = .ok ()
        ∧ env.saveOk = true) := by
  constructor
  · intro uploadPath env st id existing hid hget hin hout
    cases hff : env.formFile with
    | missing =>
      exfalso
      apply hout
      have hfiles : (Projectservice.updateProjekService uploadPath env st).2.files = st.files := by
        simp only [Projectservice.updateProjekService, hid, hget, hff]
        exact updateProjekFinish_files_noFile uploadPath env existing existing.imageURL st
      rw [hfiles]
      exact hin
    | failed =>
      exfalso
      apply hout
      have hfiles : (Projectservice.updateProjekService uploadPath env st).2.files = st.files := by
        simp only [Projectservice.updateProjekService, hid, hget, hff]
      rw [hfiles]
      exact hin
    | file f =>
      cases hval : Projectservice.validateFile f with
      | error msg =>
        exfalso
        apply hout
        have hfiles : (Projectservice.updateProjekService uploadPath env st).2.files
            = st.files := by
          simp only [Projectservice.updateProjekService, hid, hget, hff, hval]
        rw [hfiles]
        exact hin
      | ok u =>
        cases u
        by_cases hsave : env.saveOk = true
        · exact ⟨f, rfl, hval, hsave⟩
        · exfalso
          apply hout
          have hsave' : env.saveOk = false := by simpa using hsave
          have hfiles : (Projectservice.updateProjekService uploadPath env st).2.files
              = st.files := by
            simp only [Projectservice.updateProjekService, hid, hget, hff, hval, hsave']
            simp
          rw [hfiles]
          exact hin
  · intro uploadPath env st id existing hid hget hin hout
    cases hbind : env.bind with
    | none =>
      exfalso
      apply hout
      have hfiles : (Skillservice.updateWithIcon uploadPath env st).2.files = st.files := by
        simp only [Skillservice.updateWithIcon, hid, hget, hbind]
      rw [hfiles]
      exact hin
    | some form =>
      cases hff : env.formFile with
      | missing =>
        exfalso
        apply hout
        have hfiles : (Skillservice.updateWithIcon uploadPath env st).2.files = st.files := by
          simp only [Skillservice.updateWithIcon, hid, hget, hbind, hff]
          exact updateWithIconFinish_files_noFile uploadPath env existing form st
        rw [hfiles]
        exact hin
      | failed =>
        exfalso
        apply hout
        have hfiles : (Skillservice.updateWithIcon uploadPath env st).2.files = st.files := by
          simp only [Skillservice.updateWithIcon, hid, hget, hbind, hff]
        rw [hfiles]
        exact hin
      | file f =>
        cases hval : Skillservice.validateFile f with
        | error msg =>
          exfalso
          apply hout
          have hfiles : (Skillservice.updateWithIcon uploadPath env st).2.files = st.files := by
            simp only [Skillservice.updateWithIcon, hid, hget, hbind, hff, hval]
          rw [hfiles]
          exact hin
        | ok u =>
          cases u
          by_cases hsave : env.saveOk = true
          · exact ⟨f, rfl, hval, hsave⟩
          · exfalso
            apply hout
            have hsave' : env.saveOk = false := by simpa using hsave
            have hfiles : (Skillservice.updateWithIcon uploadPath env st).2.files
                = st.files := by
              simp only [Skillservice.updateWithIcon, hid, hget, hbind, hff, hval, hsave']
              simp
            rw [hfiles]
            exact hin

/-- Witness for the C1 theorem: concrete failed creates for the project and
skill services in which the uploaded file is gone afterwards. -/
theorem c1_create_deletes_upload_on_persist_failure_witness :
    ((Projectservice.createProjekWithImageService "pr" projCreateEnv0 projState0).1.isOk = false
      ∧ joinPath "pr" ("project_" ++ projCreateEnv0.uuidStr ++ filepathExt projFile0.filename)
          ∉ (Projectservice.createProjekWithImageService "pr" projCreateEnv0 projState0).2.files)
    ∧ ((Skillservice.createWithIcon "sk" skillCreateEnv0 skillState0).1.isOk = false
      ∧ joinPath "sk" ("skill_" ++ skillCreateEnv0.uuidStr ++ filepathExt skillFile0.filename)
          ∉ (Skillservice.createWithIcon "sk" skillCreateEnv0 skillState0).2.files) :=
  ⟨c1_create_deletes_upload_on_persist_failure.1 "pr" projCreateEnv0 projState0 projForm0
      projFile0 rfl (by decide) (by decide) (by decide) rfl rfl rfl rfl rfl rfl (by decide),
    c1_create_deletes_upload_on_persist_failure.2 "sk" skillCreateEnv0 skillState0 skillForm0
      skillFile0 rfl (by decide) (by decide) rfl rfl rfl rfl rfl (by decide)⟩

/-- Witness for the C2 theorem: concrete updates in which the old stored file
is gone afterwards, forcing the conclusion that the new upload succeeded. -/
theorem c2_old_file_deleted_only_after_new_save_witness :
    (∃ f, projUpdateEnv0.formFile = FormFileResult.file f
      ∧ Projectservice.validateFile f = .ok () ∧ projUpdateEnv0.saveOk = true)
    ∧ (∃ f, skillUpdEnv0.formFile = FormFileResult.file f
      ∧ Skillservice.validateFile f = .ok () ∧ skillUpdEnv0.saveOk = true) :=
  ⟨c2_old_file_deleted_only_after_new_save.1 "up" projUpdateEnv0 projUpdState0 1 projExisting0
      rfl rfl (by decide) (by decide),
    c2_old_file_deleted_only_after_new_save.2 "sk" skillUpdEnv0 skillUpdState0 2 skillExisting0
      rfl rfl (by decide) (by decide)⟩

theorem getProjek_ok_mem (db : List Project) (id : Nat) (existing : Project)
    (h : getProjekRepository db id = .ok existing) :
    existing ∈ db ∧ existing.id = id := by
  unfold getProjekRepository at h
  cases hfind : db.find? (fun p : Project => p.id = id) with
  | none =>
    rw [hfind] at h
    exact absurd h (by simp)
  | some p =>
    rw [hfind] at h
    injection h with h'
    subst h'
    refine ⟨List.mem_of_find?_eq_some hfind, ?_⟩
    have h2 := List.find?_some hfind
    simpa using h2

theorem skillGetByID_ok_mem (db : List Skill) (id : Nat) (existing : Skill)
    (h : skillGetByID db id = .ok existing) :
    existing ∈ db ∧ existing.id = id := by
  unfold skillGetByID at h
  cases hfind : db.find? (fun s : Skill => s.id = id) with
  | none =>
    rw [hfind] at h
    exact absurd h (by simp)
  | some p =>
    rw [hfind] at h
    injection h with h'
    subst h'
    refine ⟨List.mem_of_find?_eq_some hfind, ?_⟩
    have h2 := List.find?_some hfind
    simpa using h2

/-- C7 counterexample: the skill `Update` overwrites `IconURL`, `Category`
and `DisplayOrder` even when the request leaves them empty or zero.  Updating
a skill whose stored category is `programming` with an all-empty request
yields a stored category of `""`, contradicting the claim that omitted or
empty fields keep their existing stored values. -/
theorem c7_counterexample_skill_update_overwrites_empty_fields :
    (Skillservice.update skillJsonEnv0 [skillExisting0]).1
      = .ok { skillExisting0 with iconURL := "", category := "", displayOrder := 0,
                                  isFeatured := false, updatedAt := 5 }
    ∧ skillExisting0.category = "programming"
    ∧ skillJsonReq0.category = "" := by
  refine ⟨rfl, rfl, rfl⟩

/-- C7 amended: the partial-update (merge) semantics holds for the project
update — empty fields keep the stored value, the boolean flag is always
overwritten, and with no new file the stored `image_url` stays byte-identical
and no stored file is deleted.  The skill `Update` however merges only
`Name` and `Value`; `IconURL`, `Category` and `DisplayOrder` are overwritten
unconditionally (as are the boolean flag and `UpdatedAt`). -/
theorem c7_amended_partial_update_semantics :
    (∀ (uploadPath : String) (env : ProjUpdateEnv) (st : ProjState) (id : Nat)
        (existing : Project) (form : ProjectUpdateForm),
      env.idParam = some id →
      getProjekRepository st.projects id = .ok existing →
      env.formFile = .missing →
      env.bind = some form →
      env.repoOk = true →
      ∃ p, (Projectservice.updateProjekService uploadPath env st).1 = .ok p
        ∧ p.imageURL = existing.imageURL
        ∧ (form.title = "" → p.title = existing.title)
        ∧ (form.title ≠ "" → p.title = form.title)
        ∧ (form.description = "" → p.description = existing.description)
        ∧ (form.demoURL = "" → p.demoURL = existing.demoURL)
        ∧ (form.codeURL = "" → p.codeURL = existing.codeURL)
        ∧ (form.displayOrder = 0 → p.displayOrder = existing.displayOrder)
        ∧ (form.status = "" → p.status = existing.status)
        ∧ p.isFeatured = form.isFeatured
        ∧ (Projectservice.updateProjekService uploadPath env st).2.files = st.files)
    ∧ (∀ (env : SkillUpdateEnv) (db : List Skill) (id : Nat)
        (existing : Skill) (req : SkillUpdateRequest),
      env.idParam = some id →
      skillGetByID db id = .ok existing →
      env.bind = some req →
      env.repoOk = true →
      ∃ s, (Skillservice.update env db).1 = .ok s
        ∧ (req.name = "" → s.name = existing.name)
        ∧ (req.name ≠ "" → s.name = req.name)
        ∧ (req.value = 0 → s.value = existing.value)
        ∧ (req.value ≠ 0 → s.value = req.value)
        ∧ s.iconURL = req.iconURL
        ∧ s.category = req.category
        ∧ s.displayOrder = req.displayOrder
        ∧ s.isFeatured = req.isFeatured) := by
  constructor
  · intro uploadPath env st id existing form hid hget hff hbind hrepo
    have hany : (st.projects.any (fun r : Project => r.id = existing.id)) = true := by
      obtain ⟨hmem, hid'⟩ := getProjek_ok_mem st.projects id existing hget
      rw [List.any_eq_true]
      exact ⟨existing, hmem, by simp⟩
    simp only [Projectservice.updateProjekService, hid, hget, hff,
      Projectservice.updateProjekFinish, hbind, updateProjekRepository, hrepo,
      Bool.true_eq_false, if_false, hany, if_true]
    refine ⟨_, rfl, ?_, ?_, ?_, ?_, ?_, ?_, ?_, ?_, ?_, ?_⟩ <;>
      first
        | rfl
        | trivial
        | (intro h; simp [h])
  · intro env db id existing req hid hget hbind hrepo
    simp only [Skillservice.update, hid, hget, hbind, skillRepoUpdate, hrepo,
      Bool.true_eq_false, if_false]
    refine ⟨_, rfl, ?_, ?_, ?_, ?_, ?_, ?_, ?_, ?_⟩ <;>
      first
        | rfl
        | trivial
        | (intro h; simp [h])

/-- Witness for the C7 amended theorem: a concrete project update with an
all-empty form and no file, and a concrete skill update with an all-empty
request. -/
theorem c7_amended_partial_update_semantics_witness :
    (∃ p, (Projectservice.updateProjekService "up" projMissingEnv0 projUpdState0).1 = .ok p
      ∧ p.imageURL = projExisting0.imageURL
      ∧ (projUpdForm0.title = "" → p.title = projExisting0.title)
      ∧ (projUpdForm0.title ≠ "" → p.title = projUpdForm0.title)
      ∧ (projUpdForm0.description = "" → p.description = projExisting0.description)
      ∧ (projUpdForm0.demoURL = "" → p.demoURL = projExisting0.demoURL)
      ∧ (projUpdForm0.codeURL = "" → p.codeURL = projExisting0.codeURL)
      ∧ (projUpdForm0.displayOrder = 0 → p.displayOrder = projExisting0.displayOrder)
      ∧ (projUpdForm0.status = "" → p.status = projExisting0.status)
      ∧ p.isFeatured = projUpdForm0.isFeatured
      ∧ (Projectservice.updateProjekService "up" projMissingEnv0 projUpdState0).2.files
          = projUpdState0.files)
    ∧ (∃ s, (Skillservice.update skillJsonEnv0 [skillExisting0]).1 = .ok s
      ∧ (skillJsonReq0.name = "" → s.name = skillExisting0.name)
      ∧ (skillJsonReq0.name ≠ "" → s.name = skillJsonReq0.name)
      ∧ (skillJsonReq0.value = 0 → s.value = skillExisting0.value)
      ∧ (skillJsonReq0.value ≠ 0 → s.value = skillJsonReq0.value)
      ∧ s.iconURL = skillJsonReq0.iconURL
      ∧ s.category = skillJsonReq0.category
      ∧ s.displayOrder = skillJsonReq0.displayOrder
      ∧ s.isFeatured = skillJsonReq0.isFeatured) :=
  ⟨c7_amended_partial_update_semantics.1 "up" projMissingEnv0 projUpdState0 1 projExisting0
      projUpdForm0 rfl rfl rfl rfl rfl,
    c7_amended_partial_update_semantics.2 skillJsonEnv0 [skillExisting0] 2 skillExisting0
      skillJsonReq0 rfl rfl rfl rfl⟩

/-- C8 counterexample: the skill `Delete` removes the icon file BEFORE the
repository row.  With the row delete failing, the icon file is already gone
from the upload directory and the row-delete error is returned to the caller,
contradicting the claimed row-first ordering. -/
theorem c8_counterexample_skill_delete_file_before_row :
    (Skillservice.deleteSkill "sk" skillDelEnv0 skillUpdState0).1 = .error "delete failed"
    ∧ joinPath "sk" (filepathBase skillExisting0.iconURL)
        ∉ (Skillservice.deleteSkill "sk" skillDelEnv0 skillUpdState0).2.files
    ∧ joinPath "sk" (filepathBase skillExisting0.iconURL) ∈ skillUpdState0.files := by
  refine ⟨rfl, by decide, by decide⟩

/-- C8 amended: the project and certificate deletes fetch the entity, delete
the repository row first, and only then best-effort delete the stored file —
a storage-delete failure is never propagated (the call succeeds even when
`os.Remove` fails), and if the row delete fails the stored file is untouched.
The skill `Delete` instead removes the icon file before the row delete and
propagates a row-delete failure after the file is already gone. -/
theorem c8_amended_delete_row_first_best_effort_file :
    (∀ (uploadPath : String) (env : ProjDeleteEnv) (st : ProjState) (id : Nat)
        (existing : Project),
      env.idParam = some id →
      getProjekRepository st.projects id = .ok existing →
      ((env.deleteOk = true →
          (Projectservice.deleteProjekService uploadPath env st).1 = .ok ())
        ∧ (env.deleteOk = false →
          (Projectservice.deleteProjekService uploadPath env st).1
              = .error "gagal menghapus projek"
            ∧ (Projectservice.deleteProjekService uploadPath env st).2.files = st.files)))
    ∧ (∀ (uploadPath : String) (env : CertDeleteEnv) (st : CertState) (id : Nat)
        (existing : Certificate),
      env.idParam = some id →
      certGetByID st.certs id = .ok existing →
      ((env.deleteOk = true →
          (Certservice.deleteCert uploadPath env st).1 = .ok ())
        ∧ (env.deleteOk = false →
          (Certservice.deleteCert uploadPath env st).1 = .error "gagal menghapus sertif"
            ∧ (Certservice.deleteCert uploadPath env st).2.files = st.files)))
    ∧ (∀ (uploadPath : String) (env : SkillDeleteEnv) (st : SkillState) (id : Nat)
        (existing : Skill),
      env.idParam = some id →
      skillGetByID st.skills id = .ok existing →
      existing.iconURL ≠ "" →
      env.removeOk = true →
      (joinPath uploadPath (filepathBase existing.iconURL)
          ∉ (Skillservice.deleteSkill uploadPath env st).2.files
        ∧ (env.deleteOk = false →
            (Skillservice.deleteSkill uploadPath env st).1 = .error "delete failed"))) := by
  refine ⟨?_, ?_, ?_⟩
  · intro uploadPath env st id existing hid hget
    obtain ⟨hmem, hideq⟩ := getProjek_ok_mem st.projects id existing hget
    constructor
    · intro hdel
      have haff : ¬ (st.projects.filter (fun p : Project => p.id = id)).length = 0 := by
        intro h0
        rw [List.length_eq_zero] at h0
        have hmem2 : existing ∈ st.projects.filter (fun p : Project => p.id = id) :=
          List.mem_filter.mpr ⟨hmem, by simp [hideq]⟩
        rw [h0] at hmem2
        exact absurd hmem2 (List.not_mem_nil _)
      simp only [Projectservice.deleteProjekService, hid, hget, deleteProjekRepository, hdel,
        Bool.true_eq_false, if_false]
      rw [if_neg haff]
      repeat' split
      all_goals first
        | rfl
        | simp_all
    · intro hdel
      simp only [Projectservice.deleteProjekService, hid, hget, deleteProjekRepository, hdel]
      exact ⟨rfl, rfl⟩
  · intro uploadPath env st id existing hid hget
    constructor
    · intro hdel
      simp only [Certservice.deleteCert, hid, hget, certRepoDelete, hdel,
        Bool.true_eq_false, if_false]
      repeat' split
      all_goals first
        | rfl
        | simp_all
    · intro hdel
      simp only [Certservice.deleteCert, hid, hget, certRepoDelete, hdel]
      exact ⟨rfl, rfl⟩
  · intro uploadPath env st id existing hid hget hicon hremove
    constructor
    · simp only [Skillservice.deleteSkill, hid, hget]
      rw [if_pos hicon]
      simp only [hremove, if_true]
      repeat' split
      all_goals first
        | exact not_mem_filter_ne_self _ _
        | simp_all
    · intro hdel
      simp only [Skillservice.deleteSkill, hid, hget, skillRepoDelete, hdel]
      rw [if_pos hicon]
      simp only [hremove, if_true]

/-- Witness for the C8 amended theorem: a concrete project delete and
certificate delete that succeed although the storage delete fails, and a
concrete skill delete whose icon file is gone although the row delete
failed. -/
theorem c8_amended_delete_row_first_best_effort_file_witness :
    (Projectservice.deleteProjekService "up" projDelEnv0 projUpdState0).1 = .ok ()
    ∧ (Certservice.deleteCert "ct" certDelEnv0 certState0).1 = .ok ()
    ∧ joinPath "sk" (filepathBase skillExisting0.iconURL)
        ∉ (Skillservice.deleteSkill "sk" skillDelEnv0 skillUpdState0).2.files
    ∧ (Skillservice.deleteSkill "sk" skillDelEnv0 skillUpdState0).1 = .error "delete failed" :=
  ⟨(c8_amended_delete_row_first_best_effort_file.1 "up" projDelEnv0 projUpdState0 1
      projExisting0 rfl rfl).1 rfl,
    (c8_amended_delete_row_first_best_effort_file.2.1 "ct" certDelEnv0 certState0 3
      certExisting0 rfl rfl).1 rfl,
    (c8_amended_delete_row_first_best_effort_file.2.2 "sk" skillDelEnv0 skillUpdState0 2
      skillExisting0 rfl rfl (by decide) rfl).1,
    (c8_amended_delete_row_first_best_effort_file.2.2 "sk" skillDelEnv0 skillUpdState0 2
      skillExisting0 rfl rfl (by decide) rfl).2 rfl⟩

/-! ### Lemmas for the Supabase URL round-trip -/

theorem isPrefixOf_true (l₁ l₂ : List Char) : l₁.isPrefixOf l₂ = true ↔ l₁ <+: l₂ :=
  List.isPrefixOf_iff_prefix

theorem strIndex_first (pat B : List Char) :
    ∀ A : List Char, pat ≠ [] →
      (∀ i, i < A.length → ¬ pat <+: (A.drop i ++ (pat ++ B))) →
      strIndex pat (A ++ (pat ++ B)) = some A.length := by
  intro A
  induction A with
  | nil =>
    intro hne _
    cases pat with
    | nil => exact absurd rfl hne
    | cons c cs =>
      have hpre : (c :: cs).isPrefixOf (c :: (cs ++ B)) = true := by
        rw [isPrefixOf_true]
        exact (List.prefix_append (c :: cs) B).trans (by rw [List.cons_append])
      rw [List.nil_append, List.cons_append, strIndex, if_pos hpre]
      rfl
  | cons a as ih =>
    intro hne h
    have h0 := h 0 (by simp)
    rw [List.drop_zero] at h0
    have hpref : ¬ pat.isPrefixOf ((a :: as) ++ (pat ++ B)) = true := by
      intro hc
      exact h0 (isPrefixOf_true _ _ |>.mp hc)
    rw [List.cons_append, strIndex, if_neg (by rw [← List.cons_append]; exact hpref)]
    have h' : ∀ i, i < as.length → ¬ pat <+: (as.drop i ++ (pat ++ B)) := by
      intro i hi
      have := h (i + 1) (by simp; omega)
      rwa [List.drop_succ_cons] at this
    rw [ih hne h']
    rfl

theorem splitOnceSlash_append (xs ys : List Char) (h : '/' ∉ xs) :
    splitOnceSlash (xs ++ '/' :: ys) = some (xs, ys) := by
  induction xs with
  | nil => simp [splitOnceSlash]
  | cons c cs ih =>
    have hc : c ≠ '/' := fun hceq => h (hceq ▸ List.mem_cons_self c cs)
    have h' : '/' ∉ cs := fun hm => h (List.mem_cons_of_mem c hm)
    rw [List.cons_append, splitOnceSlash, if_neg hc, ih h']

/-- Reading an element of `l₁ ++ l₂` inside `l₁`. -/
theorem getAppendLeft {l₁ l₂ : List Char} {i : Nat} (h : i < l₁.length)
    (h2 : i < (l₁ ++ l₂).length) :
    (l₁ ++ l₂).get ⟨i, h2⟩ = l₁.get ⟨i, h⟩ := by
  simp [List.getElem_append_left h]

/-- Reading an element of `l₁ ++ l₂` inside `l₂`. -/
theorem getAppendRight {l₁ l₂ : List Char} {i : Nat} (h : l₁.length ≤ i)
    (h2 : i < (l₁ ++ l₂).length) (h3 : i - l₁.length < l₂.length) :
    (l₁ ++ l₂).get ⟨i, h2⟩ = l₂.get ⟨i - l₁.length, h3⟩ := by
  simp [List.getElem_append_right h]

/-- Reading an element of `l.drop i`. -/
theorem getDropEq {l : List Char} {i j : Nat} (h : j < (l.drop i).length)
    (h2 : i + j < l.length) :
    (l.drop i).get ⟨j, h⟩ = l.get ⟨i + j, h2⟩ := by
  simp [List.getElem_drop]

/-- `List.get` respects equality of the lists. -/
theorem getOfEq {l₁ l₂ : List Char} (h : l₁ = l₂) (i : Nat) (h1 : i < l₁.length)
    (h2 : i < l₂.length) :
    l₁.get ⟨i, h1⟩ = l₂.get ⟨i, h2⟩ := by
  subst h
  rfl

/-- An element read by `List.get` is a member of the list. -/
theorem getMem (l : List Char) (i : Nat) (h : i < l.length) :
    l.get ⟨i, h⟩ ∈ l := by
  rw [List.get_eq_getElem]
  exact List.getElem_mem h

/-- The URL marker cannot occur before its intended position in
`https://PROJECT.supabase.co` followed by the marker, provided the project id
contains no slash: every candidate start inside the head would need a slash
(or an `s`) where none can be. -/
theorem no_early_marker (proj B : List Char) (hp : '/' ∉ proj) :
    ∀ i, i < ("https://".data ++ (proj ++ ".supabase.co".data)).length →
      ¬ urlMarker <+:
        (("https://".data ++ (proj ++ ".supabase.co".data)).drop i ++ (urlMarker ++ B)) := by
  have hHlen : ("https://".data : List Char).length = 8 := rfl
  have hTlen : (".supabase.co".data : List Char).length = 12 := rfl
  have hMlen : urlMarker.length = 26 := rfl
  intro i hi hpre
  obtain ⟨t, ht⟩ := hpre
  have hAlen : ("https://".data ++ (proj ++ ".supabase.co".data)).length
      = 8 + (proj.length + 12) := by
    rw [List.length_append, List.length_append, hHlen, hTlen]
  rw [hAlen] at hi
  have hidx : ∀ k (hk : k < urlMarker.length)
      (hik : i + k < ("https://".data ++ (proj ++ ".supabase.co".data)).length),
      ("https://".data ++ (proj ++ ".supabase.co".data)).get ⟨i + k, hik⟩
        = urlMarker.get ⟨k, hk⟩ := by
    intro k hk hik
    have hdl : k < (("https://".data ++ (proj ++ ".supabase.co".data)).drop i).length := by
      rw [List.length_drop]
      omega
    have hkl1 : k < ((("https://".data ++ (proj ++ ".supabase.co".data)).drop i)
        ++ (urlMarker ++ B)).length := by
      rw [List.length_append]
      omega
    have hkl2 : k < (urlMarker ++ t).length := by
      rw [List.length_append]
      omega
    have e1 : ((("https://".data ++ (proj ++ ".supabase.co".data)).drop i)
          ++ (urlMarker ++ B)).get ⟨k, hkl1⟩
        = (("https://".data ++ (proj ++ ".supabase.co".data)).drop i).get ⟨k, hdl⟩ :=
      getAppendLeft hdl hkl1
    have e2 : (("https://".data ++ (proj ++ ".supabase.co".data)).drop i).get ⟨k, hdl⟩
        = ("https://".data ++ (proj ++ ".supabase.co".data)).get ⟨i + k, hik⟩ :=
      getDropEq hdl hik
    have e3 : (urlMarker ++ t).get ⟨k, hkl2⟩ = urlMarker.get ⟨k, hk⟩ :=
      getAppendLeft hk hkl2
    have e4 : (urlMarker ++ t).get ⟨k, hkl2⟩
        = ((("https://".data ++ (proj ++ ".supabase.co".data)).drop i)
            ++ (urlMarker ++ B)).get ⟨k, hkl1⟩ :=
      getOfEq ht k hkl2 hkl1
    exact (e3.symm.trans (e4.trans (e1.trans e2))).symm
  have hiA : i < ("https://".data ++ (proj ++ ".supabase.co".data)).length := by
    rw [hAlen]
    omega
  have hA0 : ("https://".data ++ (proj ++ ".supabase.co".data)).get ⟨i, hiA⟩ = '/' := by
    have h0 := hidx 0 (by omega) (by rw [hAlen]; omega)
    exact h0.trans rfl
  have hTno : ∀ c ∈ (".supabase.co".data : List Char), c ≠ '/' := by decide
  rcases Nat.lt_or_ge i 8 with h8 | h8
  · have hAi : ("https://".data ++ (proj ++ ".supabase.co".data)).get ⟨i, hiA⟩
        = ("https://".data : List Char).get ⟨i, by omega⟩ :=
      getAppendLeft (by omega) hiA
    rw [hAi] at hA0
    have hH67 : ∀ j : Fin ("https://".data : List Char).length,
        ("https://".data : List Char).get j = '/' → (j : Nat) = 6 ∨ (j : Nat) = 7 := by
      decide
    have hi67 : i = 6 ∨ i = 7 := by
      have h67 := hH67 ⟨i, by omega⟩ hA0
      simpa using h67
    rcases hi67 with rfl | rfl
    · have h1 := hidx 1 (by omega) (by rw [hAlen]; omega)
      have hA7 : ("https://".data ++ (proj ++ ".supabase.co".data)).get
            ⟨6 + 1, by rw [hAlen]; omega⟩
          = ("https://".data : List Char).get ⟨7, by omega⟩ :=
        getAppendLeft (by omega) (by rw [hAlen]; omega)
      have h1b := hA7.symm.trans h1
      have hne17 : ¬ ("https://".data : List Char).get ⟨7, by decide⟩
          = urlMarker.get ⟨1, by decide⟩ := by decide
      exact absurd h1b hne17
    · have h8m := hidx 8 (by omega) (by rw [hAlen]; omega)
      have h15A : 7 + 8 < ("https://".data ++ (proj ++ ".supabase.co".data)).length := by
        rw [hAlen]
        omega
      have h15pt : 7 + 8 - ("https://".data : List Char).length
          < (proj ++ ".supabase.co".data).length := by
        rw [List.length_append]
        omega
      have hA15 : ("https://".data ++ (proj ++ ".supabase.co".data)).get ⟨7 + 8, h15A⟩
          = (proj ++ ".supabase.co".data).get
              ⟨7 + 8 - ("https://".data : List Char).length, h15pt⟩ :=
        getAppendRight (by omega) h15A h15pt
      have hmark8 : urlMarker.get ⟨8, by omega⟩ = '/' := rfl
      have h8m2 : (proj ++ ".supabase.co".data).get
            ⟨7 + 8 - ("https://".data : List Char).length, h15pt⟩ = '/' :=
        hA15.symm.trans (h8m.trans hmark8)
      rcases Nat.lt_or_ge (7 + 8 - ("https://".data : List Char).length) proj.length
        with h7 | h7
      · have h2 : (proj ++ ".supabase.co".data).get
              ⟨7 + 8 - ("https://".data : List Char).length, h15pt⟩
            = proj.get ⟨7 + 8 - ("https://".data : List Char).length, h7⟩ :=
          getAppendLeft h7 h15pt
        rw [h2] at h8m2
        exact hp (h8m2 ▸ getMem proj _ h7)
      · have hTidx : 7 + 8 - ("https://".data : List Char).length - proj.length
            < (".supabase.co".data : List Char).length := by
          omega
        have h2 : (proj ++ ".supabase.co".data).get
              ⟨7 + 8 - ("https://".data : List Char).length, h15pt⟩
            = (".supabase.co".data : List Char).get
                ⟨7 + 8 - ("https://".data : List Char).length - proj.length, hTidx⟩ :=
          getAppendRight h7 h15pt hTidx
        rw [h2] at h8m2
        exact hTno _ (getMem _ _ hTidx) h8m2
  · have hpt : i - ("https://".data : List Char).length
        < (proj ++ ".supabase.co".data).length := by
      rw [List.length_append]
      omega
    have hAi : ("https://".data ++ (proj ++ ".supabase.co".data)).get ⟨i, hiA⟩
        = (proj ++ ".supabase.co".data).get
            ⟨i - ("https://".data : List Char).length, hpt⟩ :=
      getAppendRight (by omega) hiA hpt
    rw [hAi] at hA0
    rcases Nat.lt_or_ge (i - ("https://".data : List Char).length) proj.length
      with hj | hj
    · have h2 : (proj ++ ".supabase.co".data).get
            ⟨i - ("https://".data : List Char).length, hpt⟩
          = proj.get ⟨i - ("https://".data : List Char).length, hj⟩ :=
        getAppendLeft hj hpt
      rw [h2] at hA0
      exact hp (hA0 ▸ getMem proj _ hj)
    · have hTidx : i - ("https://".data : List Char).length - proj.length
          < (".supabase.co".data : List Char).length := by
        omega
      have h2 : (proj ++ ".supabase.co".data).get
            ⟨i - ("https://".data : List Char).length, hpt⟩
          = (".supabase.co".data : List Char).get
              ⟨i - ("https://".data : List Char).length - proj.length, hTidx⟩ :=
        getAppendRight hj hpt hTidx
      rw [h2] at hA0
      exact hTno _ (getMem _ _ hTidx) hA0

/-- A path with no leading slash is unchanged by `strings.TrimPrefix(p, "/")`. -/
theorem trimOneLeadingSlash_eq_self (p : List Char) (hp : p.head? ≠ some '/') :
    trimOneLeadingSlash p = p := by
  cases p with
  | nil => rfl
  | cons c rest =>
    have hc : c ≠ '/' := by
      intro h
      exact hp (by simp [h])
    simp [trimOneLeadingSlash, hc]

/-- Variant A round-trip: with a non-empty slash-free project id, a slash-free
bucket and a path without leading slash, extraction inverts URL
construction. -/
theorem extractA_roundtrip (s : SupabaseA.Service) (p : List Char)
    (hproj : s.projectID ≠ []) (hps : '/' ∉ s.projectID) (hbs : '/' ∉ s.bucket)
    (hp : p.head? ≠ some '/') :
    SupabaseA.extractFilePathFromURL (SupabaseA.getPublicURL s p) = p := by
  have hne : urlMarker ≠ [] := by decide
  have hidx := strIndex_first urlMarker (s.bucket ++ '/' :: p)
      ("https://".data ++ (s.projectID ++ ".supabase.co".data)) hne
      (no_early_marker s.projectID (s.bucket ++ '/' :: p) hps)
  have hurl : SupabaseA.getPublicURL s p
      = ("https://".data ++ (s.projectID ++ ".supabase.co".data))
        ++ (urlMarker ++ (s.bucket ++ '/' :: p)) := by
    unfold SupabaseA.getPublicURL
    rw [if_neg hproj, trimOneLeadingSlash_eq_self p hp]
    simp [List.append_assoc]
  have hdrop : (("https://".data ++ (s.projectID ++ ".supabase.co".data))
        ++ (urlMarker ++ (s.bucket ++ '/' :: p))).drop
        (("https://".data ++ (s.projectID ++ ".supabase.co".data)).length
          + urlMarker.length)
      = s.bucket ++ '/' :: p := by
    rw [← List.append_assoc ("https://".data ++ (s.projectID ++ ".supabase.co".data))
      urlMarker (s.bucket ++ '/' :: p)]
    exact List.drop_left' (by rw [List.length_append])
  rw [hurl]
  simp only [SupabaseA.extractFilePathFromURL, hidx, hdrop,
    splitOnceSlash_append _ _ hbs]

/-- Variant B round-trip: with the canonical `https://PROJECT.supabase.co`
base URL (slash-free project id), a slash-free bucket and a path without
leading slash, extraction inverts URL construction. -/
theorem extractB_roundtrip (s : SupabaseB.Service) (proj p : List Char)
    (hs : s.supabaseURL = "https://".data ++ proj ++ ".supabase.co".data)
    (hps : '/' ∉ proj) (hbs : '/' ∉ s.bucket) (hp : p.head? ≠ some '/') :
    SupabaseB.extractFilePathFromURL s (SupabaseB.getPublicURL s p) = p := by
  have httrim : trimOneTrailingSlash ("https://".data ++ proj ++ ".supabase.co".data)
      = "https://".data ++ proj ++ ".supabase.co".data := by
    have hlast : ("https://".data ++ proj ++ ".supabase.co".data : List Char).getLast?
        = some 'o' := by
      rw [List.getLast?_append_of_ne_nil _
        (by decide : (".supabase.co".data : List Char) ≠ [])]
      rfl
    simp only [trimOneTrailingSlash, hlast]
    rw [if_neg (by decide : ¬ ('o' : Char) = '/')]
  have hurl : SupabaseB.getPublicURL s p
      = ("https://".data ++ (proj ++ ".supabase.co".data))
        ++ (urlMarker ++ (s.bucket ++ '/' :: p)) := by
    unfold SupabaseB.getPublicURL
    rw [hs, httrim, trimOneLeadingSlash_eq_self p hp]
    simp [List.append_assoc]
  have hne : urlMarker ≠ [] := by decide
  have hidx := strIndex_first urlMarker (s.bucket ++ '/' :: p)
      ("https://".data ++ (proj ++ ".supabase.co".data)) hne
      (no_early_marker proj (s.bucket ++ '/' :: p) hps)
  have hdrop : (("https://".data ++ (proj ++ ".supabase.co".data))
        ++ (urlMarker ++ (s.bucket ++ '/' :: p))).drop
        (("https://".data ++ (proj ++ ".supabase.co".data)).length
          + urlMarker.length)
      = s.bucket ++ '/' :: p := by
    rw [← List.append_assoc ("https://".data ++ (proj ++ ".supabase.co".data))
      urlMarker (s.bucket ++ '/' :: p)]
    exact List.drop_left' (by rw [List.length_append])
  have htry : SupabaseB.tryMarker s urlMarker
      (("https://".data ++ (proj ++ ".supabase.co".data))
        ++ (urlMarker ++ (s.bucket ++ '/' :: p))) = some p := by
    simp only [SupabaseB.tryMarker, hidx, hdrop, splitOnceSlash_append _ _ hbs]
    simp
  rw [hurl]
  simp only [SupabaseB.extractFilePathFromURL, htry]

/-- **C9 (counterexample).** The claim omits every well-formedness condition
on the configured service. Variant A's `GetPublicURL` returns the empty URL
when no project id was extracted from the configuration; extraction then
yields the empty path, so the round-trip fails for the non-empty, slash-free
path `skills/u.png` even though the bucket name is non-empty. -/
theorem c9_counterexample_empty_project_id_breaks_roundtrip :
    ("skills/u.png".data : List Char) ≠ [] ∧
    ("skills/u.png".data : List Char).head? ≠ some '/' ∧
    supaA0.bucket ≠ [] ∧
    SupabaseA.extractFilePathFromURL (SupabaseA.getPublicURL supaA0 "skills/u.png".data)
      ≠ "skills/u.png".data := by
  refine ⟨by decide, by decide, by decide, ?_⟩
  decide

/-- **C9 (amended).** For both Supabase helper variants the public-URL
construction and delete-time URL parsing are mutually inverse, under the
well-formedness conditions the code relies on: variant A needs a non-empty,
slash-free project id; variant B needs a base URL of the canonical
`https://PROJECT.supabase.co` shape with a slash-free project id; both need
a slash-free bucket and a path with no leading slash. -/
theorem c9_amended_public_url_roundtrip :
    (∀ (s : SupabaseA.Service) (p : List Char),
        s.projectID ≠ [] → '/' ∉ s.projectID → '/' ∉ s.bucket →
        p.head? ≠ some '/' →
        SupabaseA.extractFilePathFromURL (SupabaseA.getPublicURL s p) = p) ∧
    (∀ (s : SupabaseB.Service) (proj p : List Char),
        s.supabaseURL = "https://".data ++ proj ++ ".supabase.co".data →
        '/' ∉ proj → '/' ∉ s.bucket → p.head? ≠ some '/' →
        SupabaseB.extractFilePathFromURL s (SupabaseB.getPublicURL s p) = p) :=
  ⟨extractA_roundtrip, extractB_roundtrip⟩

/-- Witness for the amended C9 round-trip at concrete services and path. -/
theorem c9_amended_public_url_roundtrip_witness :
    SupabaseA.extractFilePathFromURL (SupabaseA.getPublicURL supaA1 "skills/u.png".data)
      = "skills/u.png".data ∧
    SupabaseB.extractFilePathFromURL supaB1 (SupabaseB.getPublicURL supaB1 "skills/u.png".data)
      = "skills/u.png".data :=
  ⟨c9_amended_public_url_roundtrip.1 supaA1 "skills/u.png".data
      (by decide) (by decide) (by decide) (by decide),
    c9_amended_public_url_roundtrip.2 supaB1 "proj".data "skills/u.png".data
      (by decide) (by decide) (by decide) (by decide)⟩

end Porto
